import Mathlib

/-! L-Echo: tile traversal (freeform, intersection and launcher tiles)

A shallow embedding of `freeform_grid.cpp`, `trunk/isect_grid.cpp` and
`launcher.cpp`.

Conventions of the embedding
* `float` values are exact rationals (`ℚ`); every statement below is a statement
  over exact arithmetic.
* A `grid*` is an `Option grid_ptr` (`none` is `NULL`); tiles other than the one
  whose method is embedded are reached only through the virtual interface, which
  is a field of the environment (`Stage`, `LaunchEnv`).
* Code of the repository that is not part of the embedded files (the `grid` and
  `static_grid` base classes, `escgrid`, the stage, trigonometry) is a parameter.
-/

namespace Echo

/-! ## echo_math.h : vector3f -/

/-- Three float elements: a point, a direction or an angle. -/
structure vector3f where
  x : ℚ
  y : ℚ
  z : ℚ
  deriving DecidableEq, Repr

/-- ABS(x) of echo_math.h: `((x) >= 0 ? (x) : -(x))`. -/
def ABS (x : ℚ) : ℚ := if x ≥ 0 then x else -x

namespace vector3f

/-- Modelled from the spec: the body of `vector3f::operator +` is not in the
sources; the spec lists it as plain vector addition. -/
def add (a b : vector3f) : vector3f := ⟨a.x + b.x, a.y + b.y, a.z + b.z⟩

/-- Modelled from the spec: the body of `vector3f::operator -` is not in the
sources; the spec lists it as plain vector subtraction. -/
def sub (a b : vector3f) : vector3f := ⟨a.x - b.x, a.y - b.y, a.z - b.z⟩

/-- Modelled from the spec: the body of `vector3f::operator *` is not in the
sources; the spec lists it as scalar multiplication ("factor to multiply each
element by"). -/
def mul (a : vector3f) (f : ℚ) : vector3f := ⟨a.x * f, a.y * f, a.z * f⟩

/-- Modelled from the spec: the body of `vector3f::negate` is not in the sources;
the header documents it as "a new vector that is opposite to this vector". -/
def negate (a : vector3f) : vector3f := ⟨-a.x, -a.y, -a.z⟩

instance : Add vector3f := ⟨add⟩
instance : Sub vector3f := ⟨sub⟩
instance : HMul vector3f ℚ vector3f := ⟨mul⟩

end vector3f

/-- Tile information: the position (the only member the embedded code reads). -/
structure grid_info_t where
  pos : vector3f
  deriving DecidableEq, Repr

/-- A non-null `grid*`: the identity of a tile of the stage. -/
abbrev grid_ptr := Nat

/-! ## freeform_grid.cpp -/

/-- The members of `freeform_grid` that `generate_points` reads (both non-null). -/
structure freeform_grid where
  dir : vector3f
  width : vector3f
  deriving DecidableEq, Repr

/-- Embedding of `freeform_grid::generate_points`: the array `ret[0..3]`. -/
def freeform_grid.generate_points (self : freeform_grid) (my_info : grid_info_t) :
    List vector3f :=
  let pos := my_info.pos
  let dir := self.dir
  let width := self.width
  [ ⟨pos.x + dir.x + width.x, pos.y + dir.y + width.y, pos.z + dir.z + width.z⟩,
    ⟨pos.x - dir.x + width.x, pos.y - dir.y + width.y, pos.z - dir.z + width.z⟩,
    ⟨pos.x - dir.x - width.x, pos.y - dir.y - width.y, pos.z - dir.z - width.z⟩,
    ⟨pos.x + dir.x - width.x, pos.y + dir.y - width.y, pos.z + dir.z - width.z⟩ ]

/-! ## trunk/isect_grid.cpp -/

/-- GRID_PTR_SET: the tiles of one level, listed in the set's iteration order. -/
abbrev GRID_PTR_SET := List grid_ptr

/-- LEVEL_MAP: height → tile set, the entries listed in the map's iteration order
(from `begin()` to `end()`). -/
abbrev LEVEL_MAP := List (ℚ × GRID_PTR_SET)

/-- The `static_grid` (and `grid`) subobject of an intersection tile. Its classes are
not part of the embedded sources: `ginfo` is the cached info the embedded code
reads (`ginfo->pos`), `rest` stands for every other inherited member. -/
structure static_grid (σ : Type) where
  ginfo : grid_info_t
  rest : σ

/-- An `isect_grid`: the inherited subobject and the members set in `isect_grid.cpp`
(`level` and `cam_grid` are pointers, `none` is `NULL`). -/
structure isect_grid (σ : Type) extends static_grid σ where
  level_y : ℚ
  level : Option GRID_PTR_SET
  cam_grid : Option grid_ptr

/-- What `isect_grid.cpp` calls but does not define: the virtual interface of the
other tiles, the inherited methods of `grid` / `static_grid`, and the stage. -/
structure Stage (σ : Type) where
  /-- The footprint test `g->is_pt_on(angle, pt)` of tile `g`. -/
  is_pt_on : grid_ptr → vector3f → vector3f → Bool
  /-- The info `g->get_info(angle)` of another tile (`none` is `NULL`). -/
  get_info : grid_ptr → vector3f → Option grid_info_t
  /-- The base rule `grid::get_next(angle, current)` on this tile. -/
  grid_get_next : isect_grid σ → vector3f → Option grid_ptr → Option grid_ptr
  /-- The inherited `get_real_prev()`. -/
  get_real_prev : isect_grid σ → Option grid_ptr
  /-- The inherited `refresh(angle)`; it may run the virtual `force_refresh`, so it
  may change any member. -/
  refresh : isect_grid σ → vector3f → isect_grid σ
  /-- The base call `static_grid::force_refresh(camera)`: it may read the whole tile
  and writes inherited members only. -/
  static_force_refresh : isect_grid σ → vector3f → static_grid σ
  /-- The base call `static_grid::get_info(angle)`. -/
  static_get_info : isect_grid σ → vector3f → Option grid_info_t
  /-- The real camera position `camera.angle_to_real()`. -/
  angle_to_real : vector3f → vector3f
  /-- The call `echo_ns::current_stage->get_levels_higher_than(y)`. -/
  get_levels_higher_than : ℚ → LEVEL_MAP
  /-- The call `echo_ns::current_stage->get_levels_lower_than(y)`. -/
  get_levels_lower_than : ℚ → LEVEL_MAP

/-- Embedding of the static function `end_pt` (`none` is the `NULL` result). -/
def end_pt (prev_pos vec : vector3f) (level_y : ℚ) : Option vector3f :=
  if vec.y ≠ 0 then
    let delta_y := level_y - prev_pos.y
    if (delta_y > 0 ∧ vec.y < 0) ∨ (delta_y < 0 ∧ vec.y > 0) then
      none
    else
      some (prev_pos + vec * (delta_y / vec.y))
  else
    some (prev_pos + vec)

/-- Embedding of the static function `check_level`: the loop over the tile set,
returning the first tile whose footprint test succeeds. -/
def check_level (is_pt_on : grid_ptr → vector3f → vector3f → Bool) :
    GRID_PTR_SET → vector3f → vector3f → Option grid_ptr
  | [], _, _ => none
  | g :: rest, my_end_pt, angle =>
    if is_pt_on g angle my_end_pt then some g
    else check_level is_pt_on rest my_end_pt angle

/-- The footprint tests the loop of `check_level` runs, in order: it stops after the
first tile whose test succeeds. -/
def check_level_probes (is_pt_on : grid_ptr → vector3f → vector3f → Bool) :
    GRID_PTR_SET → vector3f → vector3f → List (grid_ptr × vector3f)
  | [], _, _ => []
  | g :: rest, my_end_pt, angle =>
    if is_pt_on g angle my_end_pt then [(g, my_end_pt)]
    else (g, my_end_pt) :: check_level_probes is_pt_on rest my_end_pt angle

/-- The body of the loops of `check_levels_above` and `check_levels_below`, over the
entries in visiting order; `g` is the local variable of that name, which an
iteration with a `NULL` point leaves as it is. -/
def check_levels_loop (is_pt_on : grid_ptr → vector3f → vector3f → Bool)
    (pos vec angle : vector3f) : LEVEL_MAP → Option grid_ptr → Option grid_ptr
  | [], _ => none
  | (y, tiles) :: rest, g =>
    let g1 := match end_pt pos vec y with
      | some pt => check_level is_pt_on tiles pt angle
      | none => g
    match g1 with
    | some r => some r
    | none => check_levels_loop is_pt_on pos vec angle rest g1

/-- Embedding of the static function `check_levels_above`: a forward scan from
`begin()` to `end()`. -/
def check_levels_above (is_pt_on : grid_ptr → vector3f → vector3f → Bool)
    (levels_above : LEVEL_MAP) (pos vec angle : vector3f) : Option grid_ptr :=
  if levels_above.length < 1 then none
  else check_levels_loop is_pt_on pos vec angle levels_above none

/-- Embedding of the static function `check_levels_below`: a do-while scan that
steps the iterator back from `end()` until it reaches `begin()`. -/
def check_levels_below (is_pt_on : grid_ptr → vector3f → vector3f → Bool)
    (levels_above : LEVEL_MAP) (pos vec angle : vector3f) : Option grid_ptr :=
  if levels_above.length < 1 then none
  else check_levels_loop is_pt_on pos vec angle levels_above.reverse none

/-- What a call of `isect_grid::get_next` leaves: the returned `grid*`, the tile
after the call, and the footprint tests the call ran, in order. -/
structure get_next_result (σ : Type) where
  ret : Option grid_ptr
  self : isect_grid σ
  probes : List (grid_ptr × vector3f)

/-- Lines 124 to 135 of `isect_grid::get_next`, on the refreshed tile: the value of
`my_end_pt` before `check_level`; `none` is the `NULL` of `end_pt`, on which
`get_next` returns the base rule at once. -/
def isect_grid.my_end_pt {σ : Type} (W : Stage σ) (s : isect_grid σ)
    (angle : vector3f) : Option vector3f :=
  match W.get_real_prev s with
  | some prev =>
    match W.get_info prev angle with
    | some prev_info => end_pt prev_info.pos (s.ginfo.pos - prev_info.pos) s.level_y
    | none => some s.ginfo.pos
  | none => some s.ginfo.pos

/-- Lines 124 to 135 of `isect_grid::get_next`, on the refreshed tile: whether
`my_end_pt` holds a pointer obtained from `new` (the result of `end_pt`, for a
real-prev tile that has an info) rather than the address `&ginfo->pos` it starts
with. -/
def isect_grid.my_end_pt_is_new {σ : Type} (W : Stage σ) (s : isect_grid σ)
    (angle : vector3f) : Bool :=
  match W.get_real_prev s with
  | some prev =>
    match W.get_info prev angle with
    | some _ => true
    | none => false
  | none => false

/-- Embedding of `isect_grid::get_next`. The outer `none` is undefined behaviour:
`check_level` dereferencing a `NULL` level (line 136), or `delete my_end_pt`
(line 137) applied to `&ginfo->pos`, an address that did not come from `new`: that
frees the info of the tile itself before the return of line 138. -/
def isect_grid.get_next {σ : Type} (W : Stage σ) (self : isect_grid σ)
    (angle : vector3f) (current : Option grid_ptr) : Option (get_next_result σ) :=
  let s := W.refresh self angle
  match s.cam_grid with
  | some c => some ⟨some c, s, []⟩
  | none =>
    match s.my_end_pt W angle with
    | none => some ⟨W.grid_get_next s angle current, s, []⟩
    | some pt =>
      match s.level with
      | none => none
      | some level =>
        let ret := check_level W.is_pt_on level pt angle
        if s.my_end_pt_is_new W angle then
          some ⟨match ret with
                | some g => some g
                | none => W.grid_get_next s angle current,
                s, check_level_probes W.is_pt_on level pt angle⟩
        else none

/-- Embedding of `isect_grid::init_to_null`, after the base call. -/
def isect_grid.init_to_null {σ : Type} (base : static_grid σ) (level_y : ℚ) :
    isect_grid σ :=
  { base with level_y := level_y, level := none, cam_grid := none }

/-- Embedding of `isect_grid::init`: `level_y = my_info->pos.y`, then the base call
`static_grid::init(my_info, my_prev, my_next, camera)`, which is not part of the
embedded sources (`base` is the inherited subobject it leaves), then
`level = my_level`; `cam_grid` is not written. -/
def isect_grid.init {σ : Type} (self : isect_grid σ) (my_info : grid_info_t)
    (base : static_grid σ) (my_level : Option GRID_PTR_SET) : isect_grid σ :=
  { base with level_y := my_info.pos.y, level := my_level, cam_grid := self.cam_grid }

/-- Embedding of `isect_grid::get_info`. -/
def isect_grid.get_info {σ : Type} (W : Stage σ) (self : isect_grid σ)
    (angle : vector3f) : Option grid_info_t :=
  match self.cam_grid with
  | some c => W.get_info c angle
  | none => W.static_get_info self angle

/-- Embedding of `isect_grid::force_refresh`. -/
def isect_grid.force_refresh {σ : Type} (W : Stage σ) (self : isect_grid σ)
    (camera : vector3f) : isect_grid σ :=
  let s : isect_grid σ := { self with tostatic_grid := W.static_force_refresh self camera }
  if ABS camera.x ≥ 35 ∧ ABS camera.x ≤ 50 then
    let cam_real := W.angle_to_real camera
    let cam_vec := s.ginfo.pos - cam_real
    if cam_real.y > 0 then
      let above := check_levels_above W.is_pt_on (W.get_levels_higher_than s.level_y)
        s.ginfo.pos cam_vec.negate camera
      match above with
      | some g => { s with cam_grid := some g }
      | none =>
        let below := check_levels_below W.is_pt_on (W.get_levels_lower_than s.level_y)
          s.ginfo.pos cam_vec.negate camera
        { s with cam_grid := below }
    else
      let below := check_levels_below W.is_pt_on (W.get_levels_lower_than s.level_y)
        s.ginfo.pos cam_vec.negate camera
      match below with
      | some g => { s with cam_grid := some g }
      | none =>
        let above := check_levels_above W.is_pt_on (W.get_levels_higher_than s.level_y)
          s.ginfo.pos cam_vec.negate camera
        { s with cam_grid := above }
  else
    s

/-! ## launcher.cpp -/

/-- The bounds of an `angle_range` (echo_math.h). -/
structure angle_range where
  v1 : vector3f
  v2 : vector3f
  deriving DecidableEq, Repr

/-- A `launcher`: the `escgrid` subobject (its class is not part of the embedded
sources) and the two members `launcher.cpp` sets. -/
structure launcher (ε : Type) where
  esc : ε
  real_prev : Option grid_ptr
  real_next : Option grid_ptr

/-- A `static_grid` built by `launcher::get_next`: the arguments of its constructor
`static_grid(info, prev, next, camera)` and the argument of the `set_real_next`
call it received, if any. -/
structure launch_segment where
  info : grid_info_t
  prev : Option grid_ptr
  next : Option grid_ptr
  camera : vector3f
  real_next : Option grid_ptr
  deriving DecidableEq, Repr

/-- What `launcher.cpp` calls but does not define. -/
structure LaunchEnv (ε : Type) where
  /-- The address `this` of the launcher. -/
  this : grid_ptr
  /-- The sentinel `echo_ns::hole_grid`. -/
  hole_grid : Option grid_ptr
  /-- The address the k-th `new static_grid` of a call returns. -/
  alloc : Nat → grid_ptr
  /-- The inherited `escgrid::get_esc(angle)`. -/
  get_esc : launcher ε → vector3f → Option grid_ptr
  /-- The launcher's own `get_info(angle)` (dereferenced unguarded). -/
  get_info : launcher ε → vector3f → grid_info_t
  /-- The virtual `g->get_next(angle, current)` of another tile. -/
  tile_get_next : grid_ptr → vector3f → Option grid_ptr → Option grid_ptr
  /-- The virtual `g->get_info(angle)` of another tile (`none` is `NULL`). -/
  tile_get_info : grid_ptr → vector3f → Option grid_info_t
  /-- The value `TO_DEG(atan2f(x, z))`. -/
  atan2_deg : ℚ → ℚ → ℚ
  /-- The method `vec.rotate_about_y(angle)`. -/
  rotate_about_y : vector3f → ℚ → vector3f
  /-- The seven-argument `escgrid::init`. -/
  escgrid_init_angle : vector3f → grid_info_t → grid_info_t → Option grid_ptr →
    Option grid_ptr → Option grid_ptr → Option grid_ptr → ε
  /-- The six-argument `escgrid::init`. -/
  escgrid_init_ranges : grid_info_t → Option grid_ptr → Option grid_ptr →
    Option (List angle_range) → Option (List (Option grid_ptr)) → Int → ε

/-- Embedding of `launcher::init` with an escape angle. -/
def launcher.init_angle {ε : Type} (E : LaunchEnv ε) (my_escangle : vector3f)
    (my_normal_info my_esc_info : grid_info_t)
    (my_normal_prev my_esc_prev my_normal_next my_esc_next : Option grid_ptr) :
    launcher ε :=
  { esc := E.escgrid_init_angle my_escangle my_normal_info my_esc_info E.hole_grid
      my_esc_prev E.hole_grid my_esc_next
    real_prev := my_normal_prev
    real_next := my_normal_next }

/-- Embedding of `launcher::init` with angle ranges. -/
def launcher.init {ε : Type} (E : LaunchEnv ε) (my_info : grid_info_t)
    (my_prev my_next : Option grid_ptr) (my_escranges : Option (List angle_range))
    (my_escs : Option (List (Option grid_ptr))) (my_num_escs : Int) : launcher ε :=
  { esc := E.escgrid_init_ranges my_info E.hole_grid E.hole_grid my_escranges my_escs
      my_num_escs
    real_prev := my_prev
    real_next := my_next }

/-- Embedding of the three-argument `launcher::init`. -/
def launcher.init_plain {ε : Type} (E : LaunchEnv ε) (my_info : grid_info_t)
    (my_prev my_next : Option grid_ptr) : launcher ε :=
  launcher.init E my_info my_prev my_next none none 0

/-- Embedding of `launcher::set_real_next`. -/
def launcher.set_real_next {ε : Type} (self : launcher ε) (g : Option grid_ptr) :
    launcher ε :=
  { self with real_next := g }

/-- Embedding of `launcher::set_real_prev`. -/
def launcher.set_real_prev {ε : Type} (self : launcher ε) (g : Option grid_ptr) :
    launcher ε :=
  { self with real_prev := g }

/-- Embedding of `launcher::get_real_next`. -/
def launcher.get_real_next {ε : Type} (self : launcher ε) : Option grid_ptr :=
  self.real_next

/-- Embedding of `launcher::get_real_prev`. -/
def launcher.get_real_prev {ε : Type} (self : launcher ε) : Option grid_ptr :=
  self.real_prev

/-- The constant `VERTEX_Z`. -/
def VERTEX_Z : ℚ := 2

/-- The constant `VERTEX_Y`. -/
def VERTEX_Y : ℚ := 4

/-- The constant `STATIC_STEP` (0.25f). -/
def STATIC_STEP : ℚ := 1 / 4

/-- The arc height `GET_Y(z)`: `4 - powf(z - 2, 2)`. -/
def GET_Y (z : ℚ) : ℚ := 4 - (z - 2) ^ 2

/-- The expression `TRANS_TO_LAUNCH(vec, angle, pos)`. -/
def TRANS_TO_LAUNCH {ε : Type} (E : LaunchEnv ε) (vec : vector3f) (angle : ℚ)
    (pos : vector3f) : vector3f :=
  E.rotate_about_y vec angle + pos

/-- The call `p->set_real_next(g)` on the tiles built so far: the segment at address
`p` records `g`. -/
def segments_set_real_next (heap : List (grid_ptr × launch_segment)) (p : grid_ptr)
    (g : Option grid_ptr) : List (grid_ptr × launch_segment) :=
  heap.map fun e => if e.1 = p then (e.1, { e.2 with real_next := g }) else e

/-- The `while(z <= VERTEX_Z)` loop of `launcher::get_next`, with the locals `z`,
`temp1`, `begin` and the tiles built so far (address and tile, in building order).
The first argument bounds the number of iterations; `none` means the bound was
reached before the loop condition failed. -/
def launch_loop {ε : Type} (E : LaunchEnv ε) (pos : vector3f) (launch_angle : ℚ)
    (angle : vector3f) : Nat → ℚ → grid_ptr → Option grid_ptr →
    List (grid_ptr × launch_segment) →
    Option (Option grid_ptr × List (grid_ptr × launch_segment))
  | 0, z, _, begin, heap => if z ≤ VERTEX_Z then none else some (begin, heap)
  | fuel + 1, z, temp1, begin, heap =>
    if z ≤ VERTEX_Z then
      let info_pos := TRANS_TO_LAUNCH E ⟨0, GET_Y z, z⟩ launch_angle pos
      let temp2 := E.alloc heap.length
      let heap1 := heap ++ [(temp2, ⟨⟨info_pos⟩, some temp1, E.hole_grid, angle, none⟩)]
      let heap2 := if temp1 ≠ E.this then segments_set_real_next heap1 temp1 (some temp2)
        else heap1
      let begin1 := match begin with
        | some b => some b
        | none => some temp2
      launch_loop E pos launch_angle angle fuel (z + STATIC_STEP) temp2 begin1 heap2
    else some (begin, heap)

/-- What a call of `launcher::get_next` leaves: the returned `grid*` and the
`static_grid` tiles the call built (address and tile, in building order). -/
structure launch_result where
  ret : Option grid_ptr
  generated : List (grid_ptr × launch_segment)
  deriving DecidableEq, Repr

/-- Embedding of `launcher::get_next`; `fuel` bounds the iterations of its loop and
`none` means that bound was too small. -/
def launcher.get_next {ε : Type} (E : LaunchEnv ε) (fuel : Nat) (self : launcher ε)
    (angle : vector3f) (current : Option grid_ptr) : Option launch_result :=
  match E.get_esc self angle with
  | some esc => some ⟨E.tile_get_next esc angle current, []⟩
  | none =>
    let pos := (E.get_info self angle).pos
    let direction : vector3f :=
      match self.get_real_prev with
      | some my_prev =>
        match E.tile_get_info my_prev angle with
        | some info => pos - info.pos
        | none => ⟨0, 0, 1⟩
      | none => ⟨0, 0, 1⟩
    let launch_angle := E.atan2_deg direction.x direction.z
    match launch_loop E pos launch_angle angle fuel 0 E.this none [] with
    | some (begin, heap) => some ⟨begin, heap⟩
    | none => none

/-- Lines 116 to 124 of `launcher::get_next`: the launch direction, from the real-prev
tile to the launcher, or `(0, 0, 1)` without a real-prev tile or without its info. -/
def launcher.direction {ε : Type} (E : LaunchEnv ε) (self : launcher ε)
    (angle : vector3f) : vector3f :=
  match self.get_real_prev with
  | some my_prev =>
    match E.tile_get_info my_prev angle with
    | some info => (E.get_info self angle).pos - info.pos
    | none => ⟨0, 0, 1⟩
  | none => ⟨0, 0, 1⟩

/-- Line 126 of `launcher::get_next`: `TO_DEG(atan2f(direction->x, direction->z))`. -/
def launcher.launch_angle {ε : Type} (E : LaunchEnv ε) (self : launcher ε)
    (angle : vector3f) : ℚ :=
  E.atan2_deg (self.direction E angle).x (self.direction E angle).z

/-- The virtual call `p->set_real_next(g)` as the launcher sees it: it runs
`launcher::set_real_next` only when the tile at address `p` is the launcher. -/
def launcher.set_real_next_at {ε : Type} (E : LaunchEnv ε) (self : launcher ε)
    (p : grid_ptr) (g : Option grid_ptr) : launcher ε :=
  if p = E.this then self.set_real_next g else self

/-- The `while(z <= VERTEX_Z)` loop of `launcher::get_next` as it acts on the launcher
itself: the locals `z` and `temp1`, the number of tiles built so far, and the
launcher. The first argument bounds the number of iterations, as in `launch_loop`. -/
def launch_loop_this {ε : Type} (E : LaunchEnv ε) :
    Nat → ℚ → grid_ptr → Nat → launcher ε → Option (launcher ε)
  | 0, z, _, _, self => if z ≤ VERTEX_Z then none else some self
  | fuel + 1, z, temp1, built, self =>
    if z ≤ VERTEX_Z then
      let temp2 := E.alloc built
      let self1 := if temp1 ≠ E.this then self.set_real_next_at E temp1 (some temp2)
        else self
      launch_loop_this E fuel (z + STATIC_STEP) temp2 (built + 1) self1
    else some self

/-- The launcher after a call of `launcher::get_next`, as far as `launcher.cpp` writes
it (what the escape tile does in its own `get_next` is not part of the embedded
sources); `none` means the loop bound was too small. -/
def launcher.get_next_this {ε : Type} (E : LaunchEnv ε) (fuel : Nat) (self : launcher ε)
    (angle : vector3f) : Option (launcher ε) :=
  match E.get_esc self angle with
  | some _ => some self
  | none => launch_loop_this E fuel 0 E.this 0 self

/-! ## Concrete stages used to instantiate the statements -/

/-- A stage with one level `[5, 7, 8]` around a tile at `(1, 1, 0)`: the real-prev
tile `3` sits at the origin, tile `7` is the only one whose footprint holds a point
with `x = 1`, and the base rule answers tile `7`. -/
def stage_rising : Stage Unit :=
  { is_pt_on := fun g _ pt => g == 7 && pt.x == 1
    get_info := fun g _ => if g = 3 then some ⟨⟨0, 0, 0⟩⟩ else none
    grid_get_next := fun _ _ _ => some 7
    get_real_prev := fun _ => some 3
    refresh := fun s _ => s
    static_force_refresh := fun s _ => s.tostatic_grid
    static_get_info := fun s _ => some s.ginfo
    angle_to_real := fun c => c
    get_levels_higher_than := fun _ => []
    get_levels_lower_than := fun _ => [] }

/-- The intersection tile of `stage_rising`: at `(1, 1, 0)`, level height `1`, level
`[5, 7, 8]`, no camera override. -/
def tile_rising : isect_grid Unit :=
  { ginfo := ⟨⟨1, 1, 0⟩⟩, rest := (), level_y := 1, level := some [5, 7, 8],
    cam_grid := none }

/-- The tile of `stage_rising` with the camera override set to tile `9`. -/
def tile_override : isect_grid Unit :=
  { tile_rising with cam_grid := some 9 }

/-- A stage like `stage_rising` whose inherited `get_real_prev` answers `prev` and
whose tile `3` has the info `prev_info`; the base rule answers tile `4`. -/
def stage_of (prev : Option grid_ptr) (prev_info : Option grid_info_t) : Stage Unit :=
  { is_pt_on := fun g _ pt => g == 7 && pt.x == 1
    get_info := fun g _ => if g = 3 then prev_info else none
    grid_get_next := fun _ _ _ => some 4
    get_real_prev := fun _ => prev
    refresh := fun s _ => s
    static_force_refresh := fun s _ => s.tostatic_grid
    static_get_info := fun s _ => some s.ginfo
    angle_to_real := fun c => c
    get_levels_higher_than := fun _ => []
    get_levels_lower_than := fun _ => [] }

/-- A tile at `(1, 1, 0)` whose level height is `3`, level `[5, 7, 8]`, no camera
override. -/
def tile_below_level : isect_grid Unit :=
  { ginfo := ⟨⟨1, 1, 0⟩⟩, rest := (), level_y := 3, level := some [5, 7, 8],
    cam_grid := none }

/-- A stage with two levels above, `2 ↦ [5, 7]` and `3 ↦ [8]`, and one below,
`-1 ↦ [6]`; the real camera sits at `(1, 5, 0)` whatever the camera angle, and tile
`7` is the only one whose footprint holds a point with `x = 1`. -/
def stage_levels : Stage Unit :=
  { is_pt_on := fun g _ pt => g == 7 && pt.x == 1
    get_info := fun _ _ => none
    grid_get_next := fun _ _ _ => some 4
    get_real_prev := fun _ => none
    refresh := fun s _ => s
    static_force_refresh := fun s _ => s.tostatic_grid
    static_get_info := fun s _ => some s.ginfo
    angle_to_real := fun _ => ⟨1, 5, 0⟩
    get_levels_higher_than := fun _ => [(2, [5, 7]), (3, [8])]
    get_levels_lower_than := fun _ => [(-1, [6])] }

/-- A launcher environment whose `get_esc` answers `esc` at every angle; tile `g`
answers `g + 100` as its next tile, the launcher sits at `(5, 6, 7)` and rotation
about the y-axis is the identity. -/
def launch_env (esc : Option grid_ptr) : LaunchEnv Unit :=
  { this := 0
    hole_grid := some 1
    alloc := fun k => 10 + k
    get_esc := fun _ _ => esc
    get_info := fun _ _ => ⟨⟨5, 6, 7⟩⟩
    tile_get_next := fun g _ _ => some (g + 100)
    tile_get_info := fun _ _ => none
    atan2_deg := fun _ _ => 0
    rotate_about_y := fun v _ => v
    escgrid_init_angle := fun _ _ _ _ _ _ _ => ()
    escgrid_init_ranges := fun _ _ _ _ _ _ => () }

/-! ## Vector arithmetic -/

@[simp] theorem vector3f.add_x (a b : vector3f) : (a + b).x = a.x + b.x := rfl
@[simp] theorem vector3f.add_y (a b : vector3f) : (a + b).y = a.y + b.y := rfl
@[simp] theorem vector3f.add_z (a b : vector3f) : (a + b).z = a.z + b.z := rfl
@[simp] theorem vector3f.sub_x (a b : vector3f) : (a - b).x = a.x - b.x := rfl
@[simp] theorem vector3f.sub_y (a b : vector3f) : (a - b).y = a.y - b.y := rfl
@[simp] theorem vector3f.sub_z (a b : vector3f) : (a - b).z = a.z - b.z := rfl
@[simp] theorem vector3f.mul_x (a : vector3f) (f : ℚ) : (a * f).x = a.x * f := rfl
@[simp] theorem vector3f.mul_y (a : vector3f) (f : ℚ) : (a * f).y = a.y * f := rfl
@[simp] theorem vector3f.mul_z (a : vector3f) (f : ℚ) : (a * f).z = a.z * f := rfl
@[simp] theorem vector3f.negate_x (a : vector3f) : a.negate.x = -a.x := rfl
@[simp] theorem vector3f.negate_y (a : vector3f) : a.negate.y = -a.y := rfl
@[simp] theorem vector3f.negate_z (a : vector3f) : a.negate.z = -a.z := rfl

theorem vector3f.add_def (a b : vector3f) :
    a + b = ⟨a.x + b.x, a.y + b.y, a.z + b.z⟩ := rfl

theorem vector3f.sub_def (a b : vector3f) :
    a - b = ⟨a.x - b.x, a.y - b.y, a.z - b.z⟩ := rfl

theorem vector3f.mul_def (a : vector3f) (f : ℚ) :
    a * f = ⟨a.x * f, a.y * f, a.z * f⟩ := rfl

theorem vector3f.ext_iff3 (a b : vector3f) :
    a = b ↔ a.x = b.x ∧ a.y = b.y ∧ a.z = b.z := by
  cases a; cases b; simp

/-- Adding the difference `q - p` to `p` gives `q`. -/
theorem vector3f.add_sub_cancel (p q : vector3f) : p + (q - p) = q := by
  rw [vector3f.ext_iff3]; simp

/-- The opposite of `p - c` is `c - p`. -/
theorem vector3f.negate_sub (p c : vector3f) : (p - c).negate = c - p := by
  rw [vector3f.ext_iff3]; simp

/-- The macro `ABS` is the absolute value. -/
theorem ABS_eq_abs (x : ℚ) : ABS x = |x| := by
  unfold ABS
  split
  · rename_i h; exact (abs_of_nonneg h).symm
  · rename_i h; exact (abs_of_neg (not_le.mp h)).symm

/-! ## The scan of one level -/

/-- The scan finds nothing exactly when every footprint test of the set fails. -/
theorem check_level_eq_none_iff (f : grid_ptr → vector3f → vector3f → Bool)
    (lv : GRID_PTR_SET) (pt angle : vector3f) :
    check_level f lv pt angle = none ↔ ∀ g ∈ lv, f g angle pt = false := by
  induction lv with
  | nil => simp [check_level]
  | cons a rest ih =>
    by_cases h : f a angle pt = true
    · simp [check_level, h]
    · simp [check_level, h, ih]

/-- When some tile of the set passes the footprint test, the scan returns the first
one: every tile before it in iteration order fails the test. -/
theorem check_level_first (f : grid_ptr → vector3f → vector3f → Bool)
    (lv : GRID_PTR_SET) (pt angle : vector3f) (h : ∃ t ∈ lv, f t angle pt = true) :
    ∃ g pre post, lv = pre ++ g :: post ∧ (∀ t ∈ pre, f t angle pt = false) ∧
      f g angle pt = true ∧ check_level f lv pt angle = some g := by
  induction lv with
  | nil => simp at h
  | cons a rest ih =>
    by_cases ha : f a angle pt = true
    · exact ⟨a, [], rest, by simp, by simp, ha, by simp [check_level, ha]⟩
    · have h2 : ∃ t ∈ rest, f t angle pt = true := by
        obtain ⟨t, ht, hp⟩ := h
        rcases List.mem_cons.mp ht with rfl | ht
        · exact absurd hp ha
        · exact ⟨t, ht, hp⟩
      obtain ⟨g, pre, post, hl, hpre, hg, hc⟩ := ih h2
      refine ⟨g, a :: pre, post, by simp [hl], ?_, hg, by simp [check_level, ha, hc]⟩
      intro t ht
      rcases List.mem_cons.mp ht with rfl | ht
      · simpa using ha
      · exact hpre t ht

/-- When every footprint test fails, the scan has run all of them, in order. -/
theorem check_level_probes_of_none (f : grid_ptr → vector3f → vector3f → Bool)
    (lv : GRID_PTR_SET) (pt angle : vector3f) (h : ∀ g ∈ lv, f g angle pt = false) :
    check_level_probes f lv pt angle = lv.map fun g => (g, pt) := by
  induction lv with
  | nil => simp [check_level_probes]
  | cons a rest ih =>
    have ha : f a angle pt = false := h a (by simp)
    simp [check_level_probes, ha]
    exact ih fun g hg => h g (by simp [hg])

/-- Every footprint test of the scan is made at the point handed to it. -/
theorem check_level_probes_point (f : grid_ptr → vector3f → vector3f → Bool)
    (lv : GRID_PTR_SET) (pt angle : vector3f) :
    ∀ e ∈ check_level_probes f lv pt angle, e.2 = pt := by
  induction lv with
  | nil => simp [check_level_probes]
  | cons a rest ih =>
    by_cases ha : f a angle pt = true
    · simp [check_level_probes, ha]
    · simp only [check_level_probes, ha]
      intro e he
      rcases List.mem_cons.mp he with rfl | he
      · rfl
      · exact ih e he

/-! ## freeform_grid -/

/-- C1: `generate_points` returns exactly four points, in the order
`pos + dir + width`, `pos - dir + width`, `pos - dir - width`, `pos + dir - width`,
each computed component by component on x, y and z. -/
theorem generate_points_corners (self : freeform_grid) (my_info : grid_info_t) :
    (self.generate_points my_info).length = 4 ∧
    self.generate_points my_info =
      [ my_info.pos + self.dir + self.width,
        my_info.pos - self.dir + self.width,
        my_info.pos - self.dir - self.width,
        my_info.pos + self.dir - self.width ] ∧
    ∀ pos dir width : vector3f, my_info.pos = pos → self.dir = dir → self.width = width →
      (self.generate_points my_info)[0]? =
        some ⟨pos.x + dir.x + width.x, pos.y + dir.y + width.y, pos.z + dir.z + width.z⟩ ∧
      (self.generate_points my_info)[1]? =
        some ⟨pos.x - dir.x + width.x, pos.y - dir.y + width.y, pos.z - dir.z + width.z⟩ ∧
      (self.generate_points my_info)[2]? =
        some ⟨pos.x - dir.x - width.x, pos.y - dir.y - width.y, pos.z - dir.z - width.z⟩ ∧
      (self.generate_points my_info)[3]? =
        some ⟨pos.x + dir.x - width.x, pos.y + dir.y - width.y, pos.z + dir.z - width.z⟩ := by
  refine ⟨rfl, rfl, ?_⟩
  rintro pos dir width rfl rfl rfl
  exact ⟨rfl, rfl, rfl, rfl⟩

/-! ## isect_grid::get_next -/

/-- C2: when the camera override `cam_grid` is set after `refresh(angle)`,
`get_next` returns that tile, whatever the previous tile, the trajectory and the
footprint tests are; no footprint test is run. -/
theorem get_next_returns_cam_grid {σ : Type} (W : Stage σ) (self : isect_grid σ)
    (angle : vector3f) (current : Option grid_ptr) (c : grid_ptr)
    (hcam : (W.refresh self angle).cam_grid = some c) :
    self.get_next W angle current = some ⟨some c, W.refresh self angle, []⟩ := by
  simp [isect_grid.get_next, hcam]

/-- Witness of C2 on `stage_rising` with the override set to tile `9`. -/
theorem get_next_returns_cam_grid_witness :
    (stage_rising.refresh tile_override ⟨0, 0, 0⟩).cam_grid = some 9 ∧
    tile_override.get_next stage_rising ⟨0, 0, 0⟩ none =
      some ⟨some 9, stage_rising.refresh tile_override ⟨0, 0, 0⟩, []⟩ :=
  ⟨rfl, get_next_returns_cam_grid stage_rising tile_override ⟨0, 0, 0⟩ none 9 rfl⟩

/-- The two-way test of `end_pt` is a sign test on a product. -/
theorem opposite_signs_iff (a b : ℚ) : ((a > 0 ∧ b < 0) ∨ (a < 0 ∧ b > 0)) ↔ a * b < 0 := by
  rw [mul_neg_iff]

/-- A ray that is not level and does not move away from the level gets an endpoint:
the start plus the ray scaled by `(level_y - prev_pos.y) / vec.y`. -/
theorem end_pt_of_crossing (prev_pos vec : vector3f) (level_y : ℚ) (hy : vec.y ≠ 0)
    (hsign : 0 ≤ (level_y - prev_pos.y) * vec.y) :
    end_pt prev_pos vec level_y =
      some (prev_pos + vec * ((level_y - prev_pos.y) / vec.y)) := by
  have h : ¬ ((level_y - prev_pos.y > 0 ∧ vec.y < 0) ∨ (level_y - prev_pos.y < 0 ∧ vec.y > 0)) := by
    rw [opposite_signs_iff]; exact not_lt.mpr hsign
  simp only [end_pt, hy, ne_eq, not_false_eq_true, if_true, h, if_false]

/-- A level ray gets the endpoint `prev_pos + vec`. -/
theorem end_pt_of_level (prev_pos vec : vector3f) (level_y : ℚ) (hy : vec.y = 0) :
    end_pt prev_pos vec level_y = some (prev_pos + vec) := by
  simp [end_pt, hy]

/-- With a real-prev tile that has an info, `my_end_pt` holds the result of
`end_pt`, which comes from `new`. -/
theorem my_end_pt_is_new_of_prev {σ : Type} (W : Stage σ) (s : isect_grid σ)
    (angle : vector3f) (prev : grid_ptr) (p : grid_info_t)
    (hprev : W.get_real_prev s = some prev) (hinfo : W.get_info prev angle = some p) :
    s.my_end_pt_is_new W angle = true := by
  simp [isect_grid.my_end_pt_is_new, hprev, hinfo]

/-- Without a real-prev tile, or with one that has no info at the angle, `my_end_pt`
still holds `&ginfo->pos`. -/
theorem my_end_pt_is_new_of_no_prev {σ : Type} (W : Stage σ) (s : isect_grid σ)
    (angle : vector3f)
    (h : W.get_real_prev s = none ∨
      ∃ prev, W.get_real_prev s = some prev ∧ W.get_info prev angle = none) :
    s.my_end_pt_is_new W angle = false := by
  rcases h with h | ⟨prev, hp, hi⟩
  · simp [isect_grid.my_end_pt_is_new, h]
  · simp [isect_grid.my_end_pt_is_new, hp, hi]

/-- With no camera override, an endpoint that `end_pt` allocated and a level,
`get_next` scans the level at that endpoint and falls back to the base rule when the
scan finds nothing. -/
theorem get_next_of_end_pt {σ : Type} (W : Stage σ) (self : isect_grid σ)
    (angle : vector3f) (current : Option grid_ptr) (e : vector3f) (lv : GRID_PTR_SET)
    (hcam : (W.refresh self angle).cam_grid = none)
    (he : (W.refresh self angle).my_end_pt W angle = some e)
    (hnew : (W.refresh self angle).my_end_pt_is_new W angle = true)
    (hlv : (W.refresh self angle).level = some lv) :
    self.get_next W angle current =
      some ⟨match check_level W.is_pt_on lv e angle with
            | some g => some g
            | none => W.grid_get_next (W.refresh self angle) angle current,
            W.refresh self angle, check_level_probes W.is_pt_on lv e angle⟩ := by
  simp [isect_grid.get_next, hcam, he, hnew, hlv]

/-- With no camera override and `my_end_pt` still at `&ginfo->pos`, `get_next` reaches
line 137 (or dereferences a `NULL` level before it) and deletes an address that did
not come from `new`: undefined behaviour. -/
theorem get_next_of_own_pos {σ : Type} (W : Stage σ) (self : isect_grid σ)
    (angle : vector3f) (current : Option grid_ptr) (e : vector3f)
    (hcam : (W.refresh self angle).cam_grid = none)
    (he : (W.refresh self angle).my_end_pt W angle = some e)
    (hnew : (W.refresh self angle).my_end_pt_is_new W angle = false) :
    self.get_next W angle current = none := by
  cases hlv : (W.refresh self angle).level <;>
    simp [isect_grid.get_next, hcam, he, hnew, hlv]

/-- With no camera override and no endpoint, `get_next` is the base rule and runs no
footprint test. -/
theorem get_next_of_no_end_pt {σ : Type} (W : Stage σ) (self : isect_grid σ)
    (angle : vector3f) (current : Option grid_ptr)
    (hcam : (W.refresh self angle).cam_grid = none)
    (he : (W.refresh self angle).my_end_pt W angle = none) :
    self.get_next W angle current =
      some ⟨W.grid_get_next (W.refresh self angle) angle current,
            W.refresh self angle, []⟩ := by
  simp [isect_grid.get_next, hcam, he]

/-- With a real-prev tile that has an info, the endpoint is the one of `end_pt` on the
ray from that tile to this one. -/
theorem my_end_pt_of_prev {σ : Type} (W : Stage σ) (s : isect_grid σ) (angle : vector3f)
    (prev : grid_ptr) (p : grid_info_t) (hprev : W.get_real_prev s = some prev)
    (hinfo : W.get_info prev angle = some p) :
    s.my_end_pt W angle = end_pt p.pos (s.ginfo.pos - p.pos) s.level_y := by
  simp [isect_grid.my_end_pt, hprev, hinfo]

/-- C3 (as the code has it): with no camera override, a real-prev tile at `p`, a ray
`vec = q - p` with `vec.y ≠ 0` whose sign is not opposite to that of
`level_y - p.y`, and some tile of the level passing the footprint test at
`p + vec * ((level_y - p.y) / vec.y)`, `get_next` returns the first such tile in
iteration order, and the base rule plays no part: the same result comes out
whatever `grid::get_next` would answer. -/
theorem get_next_level_hit {σ : Type} (W : Stage σ) (self : isect_grid σ)
    (angle : vector3f) (current : Option grid_ptr) (prev : grid_ptr) (p : grid_info_t)
    (lv : GRID_PTR_SET)
    (hcam : (W.refresh self angle).cam_grid = none)
    (hprev : W.get_real_prev (W.refresh self angle) = some prev)
    (hinfo : W.get_info prev angle = some p)
    (hlv : (W.refresh self angle).level = some lv)
    (hy : ((W.refresh self angle).ginfo.pos - p.pos).y ≠ 0)
    (hsign : 0 ≤ ((W.refresh self angle).level_y - p.pos.y) *
      ((W.refresh self angle).ginfo.pos - p.pos).y)
    (hit : ∃ t ∈ lv, W.is_pt_on t angle
      (p.pos + ((W.refresh self angle).ginfo.pos - p.pos) *
        (((W.refresh self angle).level_y - p.pos.y) /
          ((W.refresh self angle).ginfo.pos - p.pos).y)) = true) :
    ∃ g pre post, lv = pre ++ g :: post ∧
      (∀ t ∈ pre, W.is_pt_on t angle
        (p.pos + ((W.refresh self angle).ginfo.pos - p.pos) *
          (((W.refresh self angle).level_y - p.pos.y) /
            ((W.refresh self angle).ginfo.pos - p.pos).y)) = false) ∧
      W.is_pt_on g angle
        (p.pos + ((W.refresh self angle).ginfo.pos - p.pos) *
          (((W.refresh self angle).level_y - p.pos.y) /
            ((W.refresh self angle).ginfo.pos - p.pos).y)) = true ∧
      (∃ r, self.get_next W angle current = some r ∧ r.ret = some g) ∧
      ∀ base : isect_grid σ → vector3f → Option grid_ptr → Option grid_ptr,
        self.get_next { W with grid_get_next := base } angle current =
          self.get_next W angle current := by
  obtain ⟨g, pre, post, hl, hpre, hg, hc⟩ := check_level_first W.is_pt_on lv _ angle hit
  have he := (my_end_pt_of_prev W _ angle prev p hprev hinfo).trans
    (end_pt_of_crossing p.pos _ _ hy hsign)
  have hnew := my_end_pt_is_new_of_prev W _ angle prev p hprev hinfo
  refine ⟨g, pre, post, hl, hpre, hg, ⟨_, get_next_of_end_pt W self angle current _ lv
    hcam he hnew hlv, by simp only [hc]⟩, ?_⟩
  intro base
  rw [get_next_of_end_pt W self angle current _ lv hcam he hnew hlv,
    get_next_of_end_pt { W with grid_get_next := base } self angle current _ lv hcam he
      hnew hlv]
  simp only [hc]

/-- Witness of C3 (as the code has it) on `stage_rising`: tile `7` is the first of
`[5, 7, 8]` to pass the test at the endpoint `(1, 1, 0)`. -/
theorem get_next_level_hit_witness :
    (tile_rising.get_next stage_rising ⟨0, 0, 0⟩ none).map (fun r => r.ret) =
      some (some 7) ∧
    ∃ g pre post, ([5, 7, 8] : GRID_PTR_SET) = pre ++ g :: post ∧
      (∀ t ∈ pre, stage_rising.is_pt_on t ⟨0, 0, 0⟩
        ((⟨0, 0, 0⟩ : vector3f) + ((⟨1, 1, 0⟩ : vector3f) - ⟨0, 0, 0⟩) *
          (((1 : ℚ) - 0) / ((⟨1, 1, 0⟩ : vector3f) - ⟨0, 0, 0⟩).y)) = false) ∧
      stage_rising.is_pt_on g ⟨0, 0, 0⟩
        ((⟨0, 0, 0⟩ : vector3f) + ((⟨1, 1, 0⟩ : vector3f) - ⟨0, 0, 0⟩) *
          (((1 : ℚ) - 0) / ((⟨1, 1, 0⟩ : vector3f) - ⟨0, 0, 0⟩).y)) = true ∧
      (∃ r, tile_rising.get_next stage_rising ⟨0, 0, 0⟩ none = some r ∧ r.ret = some g) ∧
      ∀ base : isect_grid Unit → vector3f → Option grid_ptr → Option grid_ptr,
        tile_rising.get_next { stage_rising with grid_get_next := base } ⟨0, 0, 0⟩ none =
          tile_rising.get_next stage_rising ⟨0, 0, 0⟩ none :=
  ⟨by norm_num [isect_grid.get_next, isect_grid.my_end_pt, isect_grid.my_end_pt_is_new,
      stage_rising, tile_rising,
      end_pt, check_level, vector3f.add_def, vector3f.sub_def, vector3f.mul_def],
   get_next_level_hit stage_rising tile_rising ⟨0, 0, 0⟩ none 3 ⟨⟨0, 0, 0⟩⟩ [5, 7, 8]
    rfl rfl rfl rfl (by simp [stage_rising, tile_rising])
    (by simp [stage_rising, tile_rising])
    ⟨7, by simp, by simp [stage_rising, tile_rising]⟩⟩

/-- Counterexample to C3 as stated: on `stage_rising` every premise of the claim
holds (no override, real-prev at the origin, `vec.y = 1`, signs agree, tile `7`
passes the test at the scaled endpoint), `get_next` returns tile `7`, and tile `7`
is also what the base rule returns: the returned tile is the base rule's next
tile. -/
theorem get_next_level_hit_counterexample :
    (stage_rising.refresh tile_rising ⟨0, 0, 0⟩).cam_grid = none ∧
    stage_rising.get_real_prev (stage_rising.refresh tile_rising ⟨0, 0, 0⟩) = some 3 ∧
    stage_rising.get_info 3 ⟨0, 0, 0⟩ = some ⟨⟨0, 0, 0⟩⟩ ∧
    (stage_rising.refresh tile_rising ⟨0, 0, 0⟩).ginfo.pos = ⟨1, 1, 0⟩ ∧
    (stage_rising.refresh tile_rising ⟨0, 0, 0⟩).level_y = 1 ∧
    (stage_rising.refresh tile_rising ⟨0, 0, 0⟩).level = some [5, 7, 8] ∧
    ((⟨1, 1, 0⟩ : vector3f) - ⟨0, 0, 0⟩).y ≠ 0 ∧
    0 ≤ ((1 : ℚ) - 0) * ((⟨1, 1, 0⟩ : vector3f) - ⟨0, 0, 0⟩).y ∧
    stage_rising.is_pt_on 7 ⟨0, 0, 0⟩
      ((⟨0, 0, 0⟩ : vector3f) + ((⟨1, 1, 0⟩ : vector3f) - ⟨0, 0, 0⟩) *
        (((1 : ℚ) - 0) / ((⟨1, 1, 0⟩ : vector3f) - ⟨0, 0, 0⟩).y)) = true ∧
    (tile_rising.get_next stage_rising ⟨0, 0, 0⟩ none).map (fun r => r.ret) =
      some (some 7) ∧
    stage_rising.grid_get_next (stage_rising.refresh tile_rising ⟨0, 0, 0⟩) ⟨0, 0, 0⟩ none =
      some 7 := by
  refine ⟨rfl, rfl, rfl, rfl, rfl, rfl, ?_, ?_, ?_, ?_, rfl⟩
  · simp
  · simp
  · simp [stage_rising]
  · norm_num [isect_grid.get_next, isect_grid.my_end_pt, isect_grid.my_end_pt_is_new,
      stage_rising, tile_rising,
      end_pt, check_level, vector3f.add_def, vector3f.sub_def, vector3f.mul_def]

/-- With no camera override, an endpoint `e` that `end_pt` allocated and a level,
`get_next` returns: every footprint test it runs is at `e`; when some tile passes,
the result is the first such tile; when none passes, the result is the base rule and every tile was
tested. -/
theorem get_next_scan {σ : Type} (W : Stage σ) (self : isect_grid σ)
    (angle : vector3f) (current : Option grid_ptr) (e : vector3f) (lv : GRID_PTR_SET)
    (hcam : (W.refresh self angle).cam_grid = none)
    (he : (W.refresh self angle).my_end_pt W angle = some e)
    (hnew : (W.refresh self angle).my_end_pt_is_new W angle = true)
    (hlv : (W.refresh self angle).level = some lv) :
    ∃ r, self.get_next W angle current = some r ∧
      (∀ x ∈ r.probes, x.2 = e) ∧
      ((∃ t ∈ lv, W.is_pt_on t angle e = true) →
        ∃ g pre post, lv = pre ++ g :: post ∧
          (∀ t ∈ pre, W.is_pt_on t angle e = false) ∧
          W.is_pt_on g angle e = true ∧ r.ret = some g) ∧
      ((∀ t ∈ lv, W.is_pt_on t angle e = false) →
        r.ret = W.grid_get_next (W.refresh self angle) angle current ∧
        r.probes = lv.map fun g => (g, e)) := by
  refine ⟨_, get_next_of_end_pt W self angle current e lv hcam he hnew hlv,
    check_level_probes_point W.is_pt_on lv e angle, ?_, ?_⟩
  · intro hit
    obtain ⟨g, pre, post, hl, hpre, hg, hc⟩ := check_level_first W.is_pt_on lv e angle hit
    exact ⟨g, pre, post, hl, hpre, hg, by simp only [hc]⟩
  · intro hno
    have hc := (check_level_eq_none_iff W.is_pt_on lv e angle).mpr hno
    exact ⟨by simp only [hc], check_level_probes_of_none W.is_pt_on lv e angle hno⟩

/-- C4: with no camera override and a real-prev tile whose position `p` has the
same y as the tile's own position `q` (a level ray), the endpoint handed to the
footprint tests is `q` itself, unscaled, and `get_next` returns the first tile of the
level whose footprint test at `q` succeeds. -/
theorem get_next_level_ray {σ : Type} (W : Stage σ) (self : isect_grid σ)
    (angle : vector3f) (current : Option grid_ptr) (prev : grid_ptr) (p : grid_info_t)
    (lv : GRID_PTR_SET)
    (hcam : (W.refresh self angle).cam_grid = none)
    (hprev : W.get_real_prev (W.refresh self angle) = some prev)
    (hinfo : W.get_info prev angle = some p)
    (hlv : (W.refresh self angle).level = some lv)
    (hy : p.pos.y = (W.refresh self angle).ginfo.pos.y) :
    (W.refresh self angle).my_end_pt W angle = some (W.refresh self angle).ginfo.pos ∧
    ∃ r, self.get_next W angle current = some r ∧
      (∀ x ∈ r.probes, x.2 = (W.refresh self angle).ginfo.pos) ∧
      ((∃ t ∈ lv, W.is_pt_on t angle (W.refresh self angle).ginfo.pos = true) →
        ∃ g pre post, lv = pre ++ g :: post ∧
          (∀ t ∈ pre, W.is_pt_on t angle (W.refresh self angle).ginfo.pos = false) ∧
          W.is_pt_on g angle (W.refresh self angle).ginfo.pos = true ∧ r.ret = some g) := by
  have he : (W.refresh self angle).my_end_pt W angle =
      some (W.refresh self angle).ginfo.pos := by
    rw [my_end_pt_of_prev W _ angle prev p hprev hinfo,
      end_pt_of_level _ _ _ (by simp [hy]), vector3f.add_sub_cancel]
  obtain ⟨r, hr, hp, hfirst, _⟩ := get_next_scan W self angle current _ lv hcam he
    (my_end_pt_is_new_of_prev W _ angle prev p hprev hinfo) hlv
  exact ⟨he, r, hr, hp, hfirst⟩

/-- Witness of C4: the real-prev tile at `(0, 1, 0)` and the tile at `(1, 1, 0)`. -/
theorem get_next_level_ray_witness :
    (tile_rising.get_next (stage_of (some 3) (some ⟨⟨0, 1, 0⟩⟩)) ⟨0, 0, 0⟩ none).map
      (fun r => (r.ret, r.probes)) =
      some (some 7, [(5, ⟨1, 1, 0⟩), (7, ⟨1, 1, 0⟩)]) ∧
    ((stage_of (some 3) (some ⟨⟨0, 1, 0⟩⟩)).refresh tile_rising ⟨0, 0, 0⟩).my_end_pt
      (stage_of (some 3) (some ⟨⟨0, 1, 0⟩⟩)) ⟨0, 0, 0⟩ =
      some ((stage_of (some 3) (some ⟨⟨0, 1, 0⟩⟩)).refresh tile_rising ⟨0, 0, 0⟩).ginfo.pos ∧
    ∃ r, tile_rising.get_next (stage_of (some 3) (some ⟨⟨0, 1, 0⟩⟩)) ⟨0, 0, 0⟩ none =
        some r ∧
      (∀ x ∈ r.probes, x.2 =
        ((stage_of (some 3) (some ⟨⟨0, 1, 0⟩⟩)).refresh tile_rising ⟨0, 0, 0⟩).ginfo.pos) ∧
      ((∃ t ∈ ([5, 7, 8] : GRID_PTR_SET), (stage_of (some 3) (some ⟨⟨0, 1, 0⟩⟩)).is_pt_on t
          ⟨0, 0, 0⟩
          ((stage_of (some 3) (some ⟨⟨0, 1, 0⟩⟩)).refresh tile_rising ⟨0, 0, 0⟩).ginfo.pos =
            true) →
        ∃ g pre post, ([5, 7, 8] : GRID_PTR_SET) = pre ++ g :: post ∧
          (∀ t ∈ pre, (stage_of (some 3) (some ⟨⟨0, 1, 0⟩⟩)).is_pt_on t ⟨0, 0, 0⟩
            ((stage_of (some 3) (some ⟨⟨0, 1, 0⟩⟩)).refresh tile_rising ⟨0, 0, 0⟩).ginfo.pos =
              false) ∧
          (stage_of (some 3) (some ⟨⟨0, 1, 0⟩⟩)).is_pt_on g ⟨0, 0, 0⟩
            ((stage_of (some 3) (some ⟨⟨0, 1, 0⟩⟩)).refresh tile_rising ⟨0, 0, 0⟩).ginfo.pos =
              true ∧
          r.ret = some g) :=
  ⟨by norm_num [isect_grid.get_next, isect_grid.my_end_pt, isect_grid.my_end_pt_is_new,
      stage_of, tile_rising,
      end_pt, check_level, check_level_probes, vector3f.add_def, vector3f.sub_def],
   get_next_level_ray (stage_of (some 3) (some ⟨⟨0, 1, 0⟩⟩)) tile_rising ⟨0, 0, 0⟩ none 3
    ⟨⟨0, 1, 0⟩⟩ [5, 7, 8] rfl rfl rfl rfl rfl⟩

/-- The function `end_pt` returns `NULL` exactly on a ray that is not level and whose
y-component has the sign opposite to that of the height still to cover. -/
theorem end_pt_eq_none_iff (prev_pos vec : vector3f) (level_y : ℚ) :
    end_pt prev_pos vec level_y = none ↔
      vec.y ≠ 0 ∧ ((level_y - prev_pos.y > 0 ∧ vec.y < 0) ∨
        (level_y - prev_pos.y < 0 ∧ vec.y > 0)) := by
  unfold end_pt
  by_cases hy : vec.y = 0
  · simp [hy]
  · by_cases ho : (level_y - prev_pos.y > 0 ∧ vec.y < 0) ∨
        (level_y - prev_pos.y < 0 ∧ vec.y > 0)
    · simp only [ne_eq, hy, not_false_eq_true, if_true, ho, and_self]
    · simp only [ne_eq, hy, not_false_eq_true, if_true, ho, if_false, and_false]
      simp

/-- C5: `end_pt` returns no point exactly when `vec.y ≠ 0` and `level_y - prev_pos.y`
and `vec.y` have strictly opposite signs (one positive, the other negative, i.e.
their product is negative); in that case `get_next`, with no camera override and a
real-prev tile that has an info, returns the base rule's result and runs no
footprint test. -/
theorem end_pt_null_falls_back {σ : Type} (prev_pos vec : vector3f) (level_y : ℚ)
    (W : Stage σ) (self : isect_grid σ) (angle : vector3f) (current : Option grid_ptr)
    (prev : grid_ptr) (p : grid_info_t) :
    (end_pt prev_pos vec level_y = none ↔
      vec.y ≠ 0 ∧ ((level_y - prev_pos.y > 0 ∧ vec.y < 0) ∨
        (level_y - prev_pos.y < 0 ∧ vec.y > 0))) ∧
    (end_pt prev_pos vec level_y = none ↔
      vec.y ≠ 0 ∧ (level_y - prev_pos.y) * vec.y < 0) ∧
    ((W.refresh self angle).cam_grid = none →
      W.get_real_prev (W.refresh self angle) = some prev →
      W.get_info prev angle = some p →
      end_pt p.pos ((W.refresh self angle).ginfo.pos - p.pos)
        (W.refresh self angle).level_y = none →
      self.get_next W angle current =
        some ⟨W.grid_get_next (W.refresh self angle) angle current,
              W.refresh self angle, []⟩) := by
  refine ⟨end_pt_eq_none_iff prev_pos vec level_y, ?_, ?_⟩
  · rw [end_pt_eq_none_iff, opposite_signs_iff]
  · intro hcam hprev hinfo hnull
    exact get_next_of_no_end_pt W self angle current hcam
      ((my_end_pt_of_prev W _ angle prev p hprev hinfo).trans hnull)

/-- Witness of C5: the real-prev tile at `(0, 2, 0)`, the tile at `(1, 1, 0)` and the
level height `3`: the ray goes down while the level is above. -/
theorem end_pt_null_falls_back_witness :
    end_pt ⟨0, 2, 0⟩ ((⟨1, 1, 0⟩ : vector3f) - ⟨0, 2, 0⟩) 3 = none ∧
    tile_below_level.get_next (stage_of (some 3) (some ⟨⟨0, 2, 0⟩⟩)) ⟨0, 0, 0⟩ none =
      some ⟨(stage_of (some 3) (some ⟨⟨0, 2, 0⟩⟩)).grid_get_next
              ((stage_of (some 3) (some ⟨⟨0, 2, 0⟩⟩)).refresh tile_below_level ⟨0, 0, 0⟩)
              ⟨0, 0, 0⟩ none,
            (stage_of (some 3) (some ⟨⟨0, 2, 0⟩⟩)).refresh tile_below_level ⟨0, 0, 0⟩, []⟩ :=
  ⟨by norm_num [end_pt],
   (end_pt_null_falls_back ⟨0, 2, 0⟩ ((⟨1, 1, 0⟩ : vector3f) - ⟨0, 2, 0⟩) 3
      (stage_of (some 3) (some ⟨⟨0, 2, 0⟩⟩)) tile_below_level ⟨0, 0, 0⟩ none 3
      ⟨⟨0, 2, 0⟩⟩).2.2 rfl rfl rfl
      (by norm_num [end_pt, stage_of, tile_below_level])⟩

/-- Without a real-prev tile, or with one that has no info at the angle, the endpoint
is the tile's own cached position. -/
theorem my_end_pt_of_no_prev {σ : Type} (W : Stage σ) (s : isect_grid σ) (angle : vector3f)
    (h : W.get_real_prev s = none ∨
      ∃ prev, W.get_real_prev s = some prev ∧ W.get_info prev angle = none) :
    s.my_end_pt W angle = some s.ginfo.pos := by
  rcases h with h | ⟨prev, hp, hi⟩
  · simp [isect_grid.my_end_pt, h]
  · simp [isect_grid.my_end_pt, hp, hi]

/-- C7 (the code at a failing input): the tile at `(1, 1, 0)` has no real-prev tile
in `stage_of none none`, and a real-prev tile without info in
`stage_of (some 3) none`; in both the endpoint is the tile's own cached position
and tile `7` is the first tile of the level `[5, 7, 8]` to pass the footprint test
there. The claim expects tile `7`; the code, after the scan, runs
`delete my_end_pt` on `&ginfo->pos`, which did not come from `new`: the call is
undefined. -/
theorem get_next_without_prev_deletes_own_pos :
    ((stage_of none none).refresh tile_rising ⟨0, 0, 0⟩).cam_grid = none ∧
    (stage_of none none).get_real_prev ((stage_of none none).refresh tile_rising ⟨0, 0, 0⟩) =
      none ∧
    ((stage_of none none).refresh tile_rising ⟨0, 0, 0⟩).my_end_pt (stage_of none none)
      ⟨0, 0, 0⟩ = some ⟨1, 1, 0⟩ ∧
    ((stage_of none none).refresh tile_rising ⟨0, 0, 0⟩).my_end_pt_is_new
      (stage_of none none) ⟨0, 0, 0⟩ = false ∧
    ((stage_of none none).refresh tile_rising ⟨0, 0, 0⟩).level = some [5, 7, 8] ∧
    check_level (stage_of none none).is_pt_on [5, 7, 8] ⟨1, 1, 0⟩ ⟨0, 0, 0⟩ = some 7 ∧
    tile_rising.get_next (stage_of none none) ⟨0, 0, 0⟩ none = none ∧
    (stage_of (some 3) none).get_real_prev
      ((stage_of (some 3) none).refresh tile_rising ⟨0, 0, 0⟩) = some 3 ∧
    (stage_of (some 3) none).get_info 3 ⟨0, 0, 0⟩ = none ∧
    ((stage_of (some 3) none).refresh tile_rising ⟨0, 0, 0⟩).my_end_pt
      (stage_of (some 3) none) ⟨0, 0, 0⟩ = some ⟨1, 1, 0⟩ ∧
    tile_rising.get_next (stage_of (some 3) none) ⟨0, 0, 0⟩ none = none := by
  refine ⟨rfl, rfl, rfl, rfl, rfl, ?_, ?_, rfl, rfl, rfl, ?_⟩
  · norm_num [check_level, stage_of]
  · exact get_next_of_own_pos (stage_of none none) tile_rising ⟨0, 0, 0⟩ none ⟨1, 1, 0⟩
      rfl rfl rfl
  · exact get_next_of_own_pos (stage_of (some 3) none) tile_rising ⟨0, 0, 0⟩ none
      ⟨1, 1, 0⟩ rfl rfl rfl

/-! ## isect_grid::force_refresh -/

/-- C8: for a camera whose `|camera.x|` lies outside the closed band `[35, 50]`,
`force_refresh` neither recomputes nor clears the override: `cam_grid` after the
call is `cam_grid` before the call. -/
theorem force_refresh_outside_band {σ : Type} (W : Stage σ) (self : isect_grid σ)
    (camera : vector3f) (h : |camera.x| < 35 ∨ |camera.x| > 50) :
    (self.force_refresh W camera).cam_grid = self.cam_grid := by
  have hb : ¬ (ABS camera.x ≥ 35 ∧ ABS camera.x ≤ 50) := by
    rw [ABS_eq_abs]
    rintro ⟨h1, h2⟩
    rcases h with h | h
    · exact absurd h1 (not_le.mpr h)
    · exact absurd h2 (not_le.mpr h)
  simp only [isect_grid.force_refresh, hb, if_false]

/-- Witness of C8: the camera angle `(10, 0, 0)` leaves the override `9` in place. -/
theorem force_refresh_outside_band_witness :
    (|(⟨10, 0, 0⟩ : vector3f).x| < 35 ∨ |(⟨10, 0, 0⟩ : vector3f).x| > 50) ∧
    (tile_override.force_refresh stage_levels ⟨10, 0, 0⟩).cam_grid = some 9 :=
  ⟨Or.inl (by norm_num),
   force_refresh_outside_band stage_levels tile_override ⟨10, 0, 0⟩ (Or.inl (by norm_num))⟩

/-- C9: for a camera with `35 ≤ |camera.x| ≤ 50`, `force_refresh` replaces `cam_grid`
by a fresh search from the tile's position along the ray toward the real camera
position: with the real camera's y above 0 the levels above are searched first and
the levels below only when that finds nothing; otherwise the levels below first and
the levels above only when that finds nothing; `cam_grid` is `NULL` when both
searches find nothing, whatever it was before. -/
theorem force_refresh_in_band {σ : Type} (W : Stage σ) (self : isect_grid σ)
    (camera : vector3f) (h : 35 ≤ |camera.x| ∧ |camera.x| ≤ 50) :
    ((W.angle_to_real camera).y > 0 →
      (self.force_refresh W camera).cam_grid =
        match check_levels_above W.is_pt_on (W.get_levels_higher_than self.level_y)
            (W.static_force_refresh self camera).ginfo.pos
            (W.angle_to_real camera - (W.static_force_refresh self camera).ginfo.pos)
            camera with
        | some g => some g
        | none => check_levels_below W.is_pt_on (W.get_levels_lower_than self.level_y)
            (W.static_force_refresh self camera).ginfo.pos
            (W.angle_to_real camera - (W.static_force_refresh self camera).ginfo.pos)
            camera) ∧
    ((W.angle_to_real camera).y ≤ 0 →
      (self.force_refresh W camera).cam_grid =
        match check_levels_below W.is_pt_on (W.get_levels_lower_than self.level_y)
            (W.static_force_refresh self camera).ginfo.pos
            (W.angle_to_real camera - (W.static_force_refresh self camera).ginfo.pos)
            camera with
        | some g => some g
        | none => check_levels_above W.is_pt_on (W.get_levels_higher_than self.level_y)
            (W.static_force_refresh self camera).ginfo.pos
            (W.angle_to_real camera - (W.static_force_refresh self camera).ginfo.pos)
            camera) ∧
    (check_levels_above W.is_pt_on (W.get_levels_higher_than self.level_y)
        (W.static_force_refresh self camera).ginfo.pos
        (W.angle_to_real camera - (W.static_force_refresh self camera).ginfo.pos)
        camera = none →
      check_levels_below W.is_pt_on (W.get_levels_lower_than self.level_y)
        (W.static_force_refresh self camera).ginfo.pos
        (W.angle_to_real camera - (W.static_force_refresh self camera).ginfo.pos)
        camera = none →
      (self.force_refresh W camera).cam_grid = none) := by
  have hb : ABS camera.x ≥ 35 ∧ ABS camera.x ≤ 50 := by
    rw [ABS_eq_abs]; exact h
  have hdown : (W.angle_to_real camera).y > 0 →
      (self.force_refresh W camera).cam_grid =
        match check_levels_above W.is_pt_on (W.get_levels_higher_than self.level_y)
            (W.static_force_refresh self camera).ginfo.pos
            (W.angle_to_real camera - (W.static_force_refresh self camera).ginfo.pos)
            camera with
        | some g => some g
        | none => check_levels_below W.is_pt_on (W.get_levels_lower_than self.level_y)
            (W.static_force_refresh self camera).ginfo.pos
            (W.angle_to_real camera - (W.static_force_refresh self camera).ginfo.pos)
            camera := by
    intro hy
    simp only [isect_grid.force_refresh, hb, and_self, if_true, hy, vector3f.negate_sub]
    split <;> rfl
  have hup : (W.angle_to_real camera).y ≤ 0 →
      (self.force_refresh W camera).cam_grid =
        match check_levels_below W.is_pt_on (W.get_levels_lower_than self.level_y)
            (W.static_force_refresh self camera).ginfo.pos
            (W.angle_to_real camera - (W.static_force_refresh self camera).ginfo.pos)
            camera with
        | some g => some g
        | none => check_levels_above W.is_pt_on (W.get_levels_higher_than self.level_y)
            (W.static_force_refresh self camera).ginfo.pos
            (W.angle_to_real camera - (W.static_force_refresh self camera).ginfo.pos)
            camera := by
    intro hy
    have hy2 : ¬ (W.angle_to_real camera).y > 0 := not_lt.mpr hy
    simp only [isect_grid.force_refresh, hb, and_self, if_true, hy2, if_false,
      vector3f.negate_sub]
    split <;> rfl
  refine ⟨hdown, hup, ?_⟩
  intro ha hbel
  rcases lt_or_le 0 (W.angle_to_real camera).y with hy | hy
  · rw [hdown hy, ha, hbel]
  · rw [hup hy, hbel, ha]

/-- Witness of C9: the camera angle `(40, 0, 0)` with the real camera at `(1, 5, 0)`
above the tile at `(1, 1, 0)`: the first level above, at height `2`, is crossed at
`(1, 2, 0)`, where tile `7` is hit; the earlier override `9` is replaced. -/
theorem force_refresh_in_band_witness :
    (35 ≤ |(⟨40, 0, 0⟩ : vector3f).x| ∧ |(⟨40, 0, 0⟩ : vector3f).x| ≤ 50) ∧
    (stage_levels.angle_to_real ⟨40, 0, 0⟩).y > 0 ∧
    check_levels_above stage_levels.is_pt_on
      (stage_levels.get_levels_higher_than tile_override.level_y)
      (stage_levels.static_force_refresh tile_override ⟨40, 0, 0⟩).ginfo.pos
      (stage_levels.angle_to_real ⟨40, 0, 0⟩ -
        (stage_levels.static_force_refresh tile_override ⟨40, 0, 0⟩).ginfo.pos)
      ⟨40, 0, 0⟩ = some 7 ∧
    (tile_override.force_refresh stage_levels ⟨40, 0, 0⟩).cam_grid = some 7 := by
  have h : 35 ≤ |(⟨40, 0, 0⟩ : vector3f).x| ∧ |(⟨40, 0, 0⟩ : vector3f).x| ≤ 50 := by
    norm_num
  have hy : (stage_levels.angle_to_real ⟨40, 0, 0⟩).y > 0 := by
    norm_num [stage_levels]
  have ha : check_levels_above stage_levels.is_pt_on
      (stage_levels.get_levels_higher_than tile_override.level_y)
      (stage_levels.static_force_refresh tile_override ⟨40, 0, 0⟩).ginfo.pos
      (stage_levels.angle_to_real ⟨40, 0, 0⟩ -
        (stage_levels.static_force_refresh tile_override ⟨40, 0, 0⟩).ginfo.pos)
      ⟨40, 0, 0⟩ = some 7 := by
    norm_num [check_levels_above, check_levels_loop, end_pt, check_level, stage_levels,
      tile_override, tile_rising, vector3f.add_def, vector3f.sub_def, vector3f.mul_def]
  have hc := (force_refresh_in_band stage_levels tile_override ⟨40, 0, 0⟩ h).1 hy
  rw [ha] at hc
  exact ⟨h, hy, ha, hc⟩

/-! ## launcher::get_next -/

/-- C10: when `get_esc(angle)` returns a tile `T`, `launcher::get_next` returns
exactly `T->get_next(angle, current)` and builds no `static_grid` chain. -/
theorem launcher_get_next_delegates {ε : Type} (E : LaunchEnv ε) (fuel : Nat)
    (self : launcher ε) (angle : vector3f) (current : Option grid_ptr) (T : grid_ptr)
    (hesc : E.get_esc self angle = some T) :
    self.get_next E fuel angle current = some ⟨E.tile_get_next T angle current, []⟩ := by
  simp [launcher.get_next, hesc]

/-- Witness of C10: the escape tile `2` answers tile `102`; the loop bound `0` shows
that the loop is not entered. -/
theorem launcher_get_next_delegates_witness :
    (launch_env (some 2)).get_esc ⟨(), none, none⟩ ⟨0, 0, 0⟩ = some 2 ∧
    (⟨(), none, none⟩ : launcher Unit).get_next (launch_env (some 2)) 0 ⟨0, 0, 0⟩ none =
      some ⟨some 102, []⟩ :=
  ⟨rfl, launcher_get_next_delegates (launch_env (some 2)) 0 ⟨(), none, none⟩ ⟨0, 0, 0⟩
    none 2 rfl⟩


/-! ## The launch loop -/

/-- Once `z` is past `VERTEX_Z` the loop is over, whatever the bound. -/
theorem launch_loop_exit {ε : Type} (E : LaunchEnv ε) (pos : vector3f) (la : ℚ)
    (angle : vector3f) (fuel : Nat) (z : ℚ) (temp1 : grid_ptr) (b : Option grid_ptr)
    (heap : List (grid_ptr × launch_segment)) (hz : ¬ z ≤ VERTEX_Z) :
    launch_loop E pos la angle fuel z temp1 b heap = some (b, heap) := by
  cases fuel <;> simp only [launch_loop, hz, if_false]

/-- A larger bound does not change a result the loop has reached. -/
theorem launch_loop_mono {ε : Type} (E : LaunchEnv ε) (pos : vector3f) (la : ℚ)
    (angle : vector3f) (m : Nat) :
    ∀ (fuel : Nat) (z : ℚ) (temp1 : grid_ptr) (b : Option grid_ptr)
      (heap : List (grid_ptr × launch_segment))
      (r : Option grid_ptr × List (grid_ptr × launch_segment)),
      launch_loop E pos la angle fuel z temp1 b heap = some r →
      launch_loop E pos la angle (fuel + m) z temp1 b heap = some r := by
  intro fuel
  induction fuel with
  | zero =>
    intro z temp1 b heap r h
    by_cases hz : z ≤ VERTEX_Z
    · simp [launch_loop, hz] at h
    · rw [launch_loop_exit E pos la angle _ z temp1 b heap hz] at h ⊢
      exact h
  | succ n ih =>
    intro z temp1 b heap r h
    by_cases hz : z ≤ VERTEX_Z
    · rw [Nat.add_right_comm]
      simp only [launch_loop, hz, if_true] at h ⊢
      exact ih _ _ _ _ _ h
    · rw [launch_loop_exit E pos la angle _ z temp1 b heap hz] at h ⊢
      exact h

/-- Recording a `set_real_next` call changes nothing but the `real_next` entry. -/
theorem segments_set_real_next_core (heap : List (grid_ptr × launch_segment)) (p : grid_ptr)
    (g : Option grid_ptr) :
    (segments_set_real_next heap p g).map
        (fun e => (e.1, e.2.info, e.2.prev, e.2.next, e.2.camera)) =
      heap.map (fun e => (e.1, e.2.info, e.2.prev, e.2.next, e.2.camera)) := by
  unfold segments_set_real_next
  rw [List.map_map]
  apply List.map_congr_left
  intro e _
  by_cases h : e.1 = p <;> simp [h]

/-- Recording a `set_real_next` call keeps the number of tiles. -/
theorem segments_set_real_next_length (heap : List (grid_ptr × launch_segment)) (p : grid_ptr)
    (g : Option grid_ptr) : (segments_set_real_next heap p g).length = heap.length := by
  simp [segments_set_real_next]

/-- The loop, started `n` steps before `z` passes `VERTEX_Z`, ends after building
`n` more tiles: the k-th of them at the address `alloc (heap.length + k)`, at the
arc point of `z + k * STATIC_STEP`, with the tile built before it as `prev` and the
hole as `next`. -/
theorem launch_loop_core {ε : Type} (E : LaunchEnv ε) (pos : vector3f) (la : ℚ)
    (angle : vector3f) :
    ∀ (n fuel : Nat) (z : ℚ) (temp1 : grid_ptr) (b : Option grid_ptr)
      (heap : List (grid_ptr × launch_segment)),
      z = (9 - (n : ℚ)) / 4 → n ≤ fuel →
      ∃ h, launch_loop E pos la angle fuel z temp1 b heap =
          some ((match b with
            | some x => some x
            | none => if n = 0 then none else some (E.alloc heap.length)), h) ∧
        h.map (fun e => (e.1, e.2.info, e.2.prev, e.2.next, e.2.camera)) =
          heap.map (fun e => (e.1, e.2.info, e.2.prev, e.2.next, e.2.camera)) ++
          (List.range n).map (fun i => (E.alloc (heap.length + i),
            (⟨TRANS_TO_LAUNCH E ⟨0, GET_Y (z + (i : ℚ) * STATIC_STEP),
              z + (i : ℚ) * STATIC_STEP⟩ la pos⟩ : grid_info_t),
            some (if i = 0 then temp1 else E.alloc (heap.length + i - 1)),
            E.hole_grid, angle)) := by
  intro n
  induction n with
  | zero =>
    intro fuel z temp1 b heap hz _
    have hnot : ¬ z ≤ VERTEX_Z := by
      rw [hz]; norm_num [VERTEX_Z]
    refine ⟨heap, ?_, by simp⟩
    rw [launch_loop_exit E pos la angle fuel z temp1 b heap hnot]
    cases b <;> simp
  | succ n ih =>
    intro fuel z temp1 b heap hz hf
    obtain ⟨f, rfl⟩ : ∃ f, fuel = f + 1 := ⟨fuel - 1, by omega⟩
    have hn : (0 : ℚ) ≤ (n : ℚ) := Nat.cast_nonneg n
    have hle : z ≤ VERTEX_Z := by
      rw [hz]; push_cast; norm_num [VERTEX_Z]; linarith
    have hlen : (if temp1 ≠ E.this then
          segments_set_real_next
            (heap ++ [(E.alloc heap.length,
              ⟨⟨TRANS_TO_LAUNCH E ⟨0, GET_Y z, z⟩ la pos⟩, some temp1, E.hole_grid, angle, none⟩)])
            temp1 (some (E.alloc heap.length))
         else heap ++ [(E.alloc heap.length,
              ⟨⟨TRANS_TO_LAUNCH E ⟨0, GET_Y z, z⟩ la pos⟩, some temp1, E.hole_grid, angle,
                none⟩)]).length = heap.length + 1 := by
      split <;> simp [segments_set_real_next_length]
    have hcore : (if temp1 ≠ E.this then
          segments_set_real_next
            (heap ++ [(E.alloc heap.length,
              ⟨⟨TRANS_TO_LAUNCH E ⟨0, GET_Y z, z⟩ la pos⟩, some temp1, E.hole_grid, angle, none⟩)])
            temp1 (some (E.alloc heap.length))
         else heap ++ [(E.alloc heap.length,
              ⟨⟨TRANS_TO_LAUNCH E ⟨0, GET_Y z, z⟩ la pos⟩, some temp1, E.hole_grid, angle,
                none⟩)]).map (fun e => (e.1, e.2.info, e.2.prev, e.2.next, e.2.camera)) =
        heap.map (fun e => (e.1, e.2.info, e.2.prev, e.2.next, e.2.camera)) ++
          [(E.alloc heap.length, ⟨TRANS_TO_LAUNCH E ⟨0, GET_Y z, z⟩ la pos⟩, some temp1,
            E.hole_grid, angle)] := by
      split
      · rw [segments_set_real_next_core]; simp
      · simp
    obtain ⟨h, hh, hm⟩ := ih f (z + STATIC_STEP) (E.alloc heap.length)
      (match b with
        | some x => some x
        | none => some (E.alloc heap.length))
      _ (by rw [hz]; push_cast; norm_num [STATIC_STEP]; ring) (by omega)
    refine ⟨h, ?_, ?_⟩
    · simp only [launch_loop, hle, if_true]
      rw [hh]
      cases b <;> simp
    · rw [hm, hcore, hlen, List.range_succ_eq_map, List.map_cons, List.map_map,
        List.append_assoc]
      congr 1
      simp only [List.singleton_append, Nat.cast_zero, zero_mul, add_zero, if_true]
      congr 1
      apply List.map_congr_left
      intro i _
      simp only [Function.comp, Nat.succ_eq_add_one, Nat.cast_add, Nat.cast_one]
      have e1 : heap.length + 1 + i = heap.length + (i + 1) := by omega
      have e2 : z + STATIC_STEP + (i : ℚ) * STATIC_STEP = z + ((i : ℚ) + 1) * STATIC_STEP := by
        ring
      rw [e1, e2]
      by_cases hi : i = 0
      · subst hi; simp
      · simp [hi]

/-- With fresh addresses (`new` never returns the same address twice, nor the
launcher's), the loop run from `z = 0` builds nine tiles: the k-th at the arc point of
`k * STATIC_STEP`, with the tile built before it (the launcher for the first) as
`prev`, the hole as `next`, and the tile built after it as `real_next` (none for the
last). -/
theorem launch_loop_chain {ε : Type} (E : LaunchEnv ε) (pos : vector3f) (la : ℚ)
    (angle : vector3f) (fuel : Nat) (hfuel : 9 ≤ fuel)
    (hinj : Function.Injective E.alloc) (hthis : ∀ k, E.alloc k ≠ E.this) :
    launch_loop E pos la angle fuel 0 E.this none [] = some (some (E.alloc 0),
      (List.range 9).map (fun k => (E.alloc k,
        ⟨⟨TRANS_TO_LAUNCH E ⟨0, GET_Y ((k : ℚ) * STATIC_STEP), (k : ℚ) * STATIC_STEP⟩ la pos⟩,
          some (if k = 0 then E.this else E.alloc (k - 1)), E.hole_grid, angle,
          if k < 8 then some (E.alloc (k + 1)) else none⟩))) := by
  obtain ⟨m, rfl⟩ : ∃ m, fuel = 9 + m := ⟨fuel - 9, by omega⟩
  apply launch_loop_mono
  norm_num [launch_loop, VERTEX_Z, STATIC_STEP, segments_set_real_next, hthis, hinj.eq_iff,
    List.range_succ]

/-- The loop run from `z = 0` ends for every bound of at least nine, with the first
tile built as `begin` and nine tiles: the k-th at the address `alloc k`, at the arc
point of `k * STATIC_STEP`. -/
theorem launch_loop_nine {ε : Type} (E : LaunchEnv ε) (pos : vector3f) (la : ℚ)
    (angle : vector3f) (fuel : Nat) (hfuel : 9 ≤ fuel) :
    ∃ h, launch_loop E pos la angle fuel 0 E.this none [] = some (some (E.alloc 0), h) ∧
      h.map (fun e => (e.1, e.2.info, e.2.prev, e.2.next, e.2.camera)) =
        (List.range 9).map (fun i => (E.alloc i,
          (⟨TRANS_TO_LAUNCH E ⟨0, GET_Y ((i : ℚ) * STATIC_STEP),
            (i : ℚ) * STATIC_STEP⟩ la pos⟩ : grid_info_t),
          some (if i = 0 then E.this else E.alloc (i - 1)), E.hole_grid, angle)) := by
  obtain ⟨h, hh, hm⟩ := launch_loop_core E pos la angle 9 fuel 0 E.this none []
    (by norm_num) hfuel
  refine ⟨h, by simpa using hh, ?_⟩
  rw [hm]
  simp

/-- Without a matching range, `launcher::get_next` is its loop, run from `z = 0` at the
launcher's position and launch angle. -/
theorem launcher_get_next_of_no_esc {ε : Type} (E : LaunchEnv ε) (fuel : Nat)
    (self : launcher ε) (angle : vector3f) (current : Option grid_ptr)
    (hesc : E.get_esc self angle = none) :
    self.get_next E fuel angle current =
      match launch_loop E (E.get_info self angle).pos (self.launch_angle E angle) angle fuel
          0 E.this none [] with
      | some (begin, heap) => some ⟨begin, heap⟩
      | none => none := by
  simp only [launcher.get_next, hesc, launcher.launch_angle, launcher.direction]

/-- The loop never writes the launcher: the call `temp1->set_real_next(temp2)` is
guarded by `temp1 != this`. -/
theorem launch_loop_this_id {ε : Type} (E : LaunchEnv ε) :
    ∀ (n fuel : Nat) (z : ℚ) (temp1 : grid_ptr) (built : Nat) (self : launcher ε),
      z = (9 - (n : ℚ)) / 4 → n ≤ fuel →
      launch_loop_this E fuel z temp1 built self = some self := by
  intro n
  induction n with
  | zero =>
    intro fuel z temp1 built self hz _
    have hnot : ¬ z ≤ VERTEX_Z := by
      rw [hz]; norm_num [VERTEX_Z]
    cases fuel <;> simp only [launch_loop_this, hnot, if_false]
  | succ n ih =>
    intro fuel z temp1 built self hz hf
    obtain ⟨f, rfl⟩ : ∃ f, fuel = f + 1 := ⟨fuel - 1, by omega⟩
    have hn : (0 : ℚ) ≤ (n : ℚ) := Nat.cast_nonneg n
    have hle : z ≤ VERTEX_Z := by
      rw [hz]; push_cast; norm_num [VERTEX_Z]; linarith
    have hself : (if temp1 ≠ E.this then self.set_real_next_at E temp1 (some (E.alloc built))
        else self) = self := by
      by_cases h : temp1 = E.this
      · simp [h]
      · simp [h, launcher.set_real_next_at]
    simp only [launch_loop_this, hle, if_true, hself]
    exact ih f _ _ _ _ (by rw [hz]; push_cast; norm_num [STATIC_STEP]; ring) (by omega)

/-- A list whose image under `f` is the image of `range n` under `F` has, at each
index `k < n`, an element that `f` sends to `F k`. -/
theorem index_of_map_eq_range {α β : Type} (f : α → β) (F : Nat → β) (n : Nat)
    (l : List α) (hm : l.map f = (List.range n).map F) (k : Nat) (hk : k < n) :
    ∃ e, l[k]? = some e ∧ f e = F k := by
  have h := congrArg (fun t => t[k]?) hm
  simp only [List.getElem?_map, List.getElem?_range hk, Option.map_some] at h
  cases hl : l[k]? with
  | none => simp [hl] at h
  | some e => exact ⟨e, rfl, by simpa [hl] using h⟩

/-- C11 (as the code has it): the launch chain is generated when no angle range
matches: with `get_esc(angle)` null, `launcher::get_next` computes the launch
trajectory and returns the head of a newly generated chain of nine `static_grid`
tiles, the first of them at the arc point of `z = 0`; with `get_esc(angle)` non-null
no chain is generated and the call is delegated to the alternate tile. -/
theorem launcher_chain_when_no_range {ε : Type} (E : LaunchEnv ε) (fuel : Nat)
    (self : launcher ε) (angle : vector3f) (current : Option grid_ptr)
    (hfuel : 9 ≤ fuel) :
    (E.get_esc self angle = none →
      ∃ r seg, self.get_next E fuel angle current = some r ∧
        r.ret = some (E.alloc 0) ∧ r.generated.length = 9 ∧
        r.generated[0]? = some (E.alloc 0, seg) ∧
        seg.info.pos = TRANS_TO_LAUNCH E ⟨0, GET_Y 0, 0⟩ (self.launch_angle E angle)
          (E.get_info self angle).pos) ∧
    (∀ T, E.get_esc self angle = some T →
      self.get_next E fuel angle current = some ⟨E.tile_get_next T angle current, []⟩) := by
  constructor
  · intro hesc
    obtain ⟨h, hh, hm⟩ := launch_loop_nine E (E.get_info self angle).pos
      (self.launch_angle E angle) angle fuel hfuel
    have hlen : h.length = 9 := by
      have := congrArg List.length hm
      simpa using this
    obtain ⟨e, he, hc⟩ := index_of_map_eq_range _ _ 9 h hm 0 (by norm_num)
    obtain ⟨p, seg⟩ := e
    simp only [Prod.mk.injEq] at hc
    obtain ⟨hp, hinfo, -⟩ := hc
    refine ⟨⟨some (E.alloc 0), h⟩, seg, ?_, rfl, hlen, ?_, ?_⟩
    · rw [launcher_get_next_of_no_esc E fuel self angle current hesc, hh]
    · rw [he, hp]
    · rw [hinfo]; simp
  · intro T hT
    simp [launcher.get_next, hT]

/-- Witness of C11 (as the code has it): the launcher of `launch_env none`, where no
range matches, with the loop bound nine. -/
theorem launcher_chain_when_no_range_witness :
    (9 ≤ 9) ∧
    ((launch_env none).get_esc ⟨(), none, none⟩ ⟨0, 0, 0⟩ = none →
      ∃ r seg, (⟨(), none, none⟩ : launcher Unit).get_next (launch_env none) 9 ⟨0, 0, 0⟩
          none = some r ∧
        r.ret = some ((launch_env none).alloc 0) ∧ r.generated.length = 9 ∧
        r.generated[0]? = some ((launch_env none).alloc 0, seg) ∧
        seg.info.pos = TRANS_TO_LAUNCH (launch_env none) ⟨0, GET_Y 0, 0⟩
          ((⟨(), none, none⟩ : launcher Unit).launch_angle (launch_env none) ⟨0, 0, 0⟩)
          ((launch_env none).get_info ⟨(), none, none⟩ ⟨0, 0, 0⟩).pos) ∧
    (∀ T, (launch_env none).get_esc ⟨(), none, none⟩ ⟨0, 0, 0⟩ = some T →
      (⟨(), none, none⟩ : launcher Unit).get_next (launch_env none) 9 ⟨0, 0, 0⟩ none =
        some ⟨(launch_env none).tile_get_next T ⟨0, 0, 0⟩ none, []⟩) :=
  ⟨le_refl 9, launcher_chain_when_no_range (launch_env none) 9 ⟨(), none, none⟩ ⟨0, 0, 0⟩
    none (le_refl 9)⟩

/-- Counterexample to C11 as stated: in `launch_env (some 2)` a range matches
(`get_esc` answers tile `2`), yet `get_next` builds no tile and returns what tile `2`
answers, tile `102`; in `launch_env none` no range matches, yet `get_next` builds
nine tiles and returns the first of them, at address `10`. -/
theorem launcher_chain_on_match_counterexample :
    (launch_env (some 2)).get_esc ⟨(), none, none⟩ ⟨0, 0, 0⟩ = some 2 ∧
    (⟨(), none, none⟩ : launcher Unit).get_next (launch_env (some 2)) 9 ⟨0, 0, 0⟩ none =
      some ⟨some 102, []⟩ ∧
    (launch_env none).get_esc ⟨(), none, none⟩ ⟨0, 0, 0⟩ = none ∧
    ((⟨(), none, none⟩ : launcher Unit).get_next (launch_env none) 9 ⟨0, 0, 0⟩ none).map
      (fun r => (r.ret, r.generated.length)) = some (some 10, 9) := by
  refine ⟨rfl, rfl, rfl, ?_⟩
  norm_num [launcher.get_next, launch_env, launch_loop, VERTEX_Z, STATIC_STEP,
    segments_set_real_next]

/-- C12: whenever `launcher::get_next` generates a chain, its loop terminates (every
bound of at least nine iterations gives the result) and the chain has exactly
`ceil(VERTEX_Z / STATIC_STEP) + 1 = 9` tiles, one for each `z` in
`0, 0.25, 0.5, ..., 2`, whatever the launcher's position, the angle and the launch
direction are. -/
theorem launch_chain_has_nine_segments {ε : Type} (E : LaunchEnv ε) (fuel : Nat)
    (self : launcher ε) (angle : vector3f) (current : Option grid_ptr)
    (hesc : E.get_esc self angle = none) (hfuel : 9 ≤ fuel) :
    ⌈VERTEX_Z / STATIC_STEP⌉ + 1 = 9 ∧
    (List.range 9).map (fun (k : Nat) => (k : ℚ) * STATIC_STEP) =
      [0, 1 / 4, 1 / 2, 3 / 4, 1, 5 / 4, 3 / 2, 7 / 4, 2] ∧
    ∃ r, self.get_next E fuel angle current = some r ∧
      r.generated.length = 9 ∧
      r.generated.map (fun e => e.2.info.pos) =
        (List.range 9).map (fun (k : Nat) =>
          TRANS_TO_LAUNCH E ⟨0, GET_Y ((k : ℚ) * STATIC_STEP), (k : ℚ) * STATIC_STEP⟩
            (self.launch_angle E angle) (E.get_info self angle).pos) := by
  obtain ⟨h, hh, hm⟩ := launch_loop_nine E (E.get_info self angle).pos
    (self.launch_angle E angle) angle fuel hfuel
  refine ⟨?_, ?_, ⟨some (E.alloc 0), h⟩, ?_, ?_, ?_⟩
  · have h8 : VERTEX_Z / STATIC_STEP = ((8 : ℤ) : ℚ) := by
      norm_num [VERTEX_Z, STATIC_STEP]
    rw [h8, Int.ceil_intCast]
    norm_num
  · norm_num [List.range_succ, STATIC_STEP]
  · rw [launcher_get_next_of_no_esc E fuel self angle current hesc, hh]
  · have := congrArg List.length hm
    simpa using this
  · have := congrArg (List.map (fun c => c.2.1.pos)) hm
    simpa [List.map_map, Function.comp] using this

/-- Witness of C12 on `launch_env none` with the loop bound twelve. -/
theorem launch_chain_has_nine_segments_witness :
    (launch_env none).get_esc ⟨(), none, none⟩ ⟨0, 0, 0⟩ = none ∧ 9 ≤ 12 ∧
    (⌈VERTEX_Z / STATIC_STEP⌉ + 1 = 9 ∧
    (List.range 9).map (fun (k : Nat) => (k : ℚ) * STATIC_STEP) =
      [0, 1 / 4, 1 / 2, 3 / 4, 1, 5 / 4, 3 / 2, 7 / 4, 2] ∧
    ∃ r, (⟨(), none, none⟩ : launcher Unit).get_next (launch_env none) 12 ⟨0, 0, 0⟩ none =
        some r ∧
      r.generated.length = 9 ∧
      r.generated.map (fun e => e.2.info.pos) =
        (List.range 9).map (fun (k : Nat) =>
          TRANS_TO_LAUNCH (launch_env none)
            ⟨0, GET_Y ((k : ℚ) * STATIC_STEP), (k : ℚ) * STATIC_STEP⟩
            ((⟨(), none, none⟩ : launcher Unit).launch_angle (launch_env none) ⟨0, 0, 0⟩)
            ((launch_env none).get_info ⟨(), none, none⟩ ⟨0, 0, 0⟩).pos)) :=
  ⟨rfl, by norm_num, launch_chain_has_nine_segments (launch_env none) 12 ⟨(), none, none⟩
    ⟨0, 0, 0⟩ none rfl (by norm_num)⟩

/-- C13: for a launcher at `pos` with no real-prev tile the direction is `(0, 0, 1)`
and the launch angle `atan2(0, 1) = 0` degrees; taking the rotation about the y-axis
by 0 degrees as the identity, the k-th generated tile (`k = 0..8`) is at
`pos + (0, 4 - (0.25 k - 2)^2, 0.25 k)`: the first is exactly at `pos` and each later
one has a `z` larger than its predecessor's by `STATIC_STEP`. -/
theorem launch_chain_straight {ε : Type} (E : LaunchEnv ε) (fuel : Nat)
    (self : launcher ε) (angle : vector3f) (current : Option grid_ptr)
    (hesc : E.get_esc self angle = none) (hprev : self.get_real_prev = none)
    (hatan : E.atan2_deg 0 1 = 0) (hrot : ∀ v, E.rotate_about_y v 0 = v)
    (hfuel : 9 ≤ fuel) :
    self.direction E angle = ⟨0, 0, 1⟩ ∧ self.launch_angle E angle = 0 ∧
    ∃ r, self.get_next E fuel angle current = some r ∧
      r.generated.map (fun e => e.2.info.pos) =
        (List.range 9).map (fun (k : Nat) => (E.get_info self angle).pos +
          ⟨0, 4 - ((1 / 4 : ℚ) * k - 2) ^ 2, (1 / 4 : ℚ) * k⟩) ∧
      (r.generated.map (fun e => e.2.info.pos))[0]? = some (E.get_info self angle).pos ∧
      ∀ k p q, k + 1 < 9 →
        (r.generated.map (fun e => e.2.info.pos))[k]? = some p →
        (r.generated.map (fun e => e.2.info.pos))[k + 1]? = some q →
        q.z = p.z + STATIC_STEP := by
  have hdir : self.direction E angle = ⟨0, 0, 1⟩ := by
    simp [launcher.direction, hprev]
  have hla : self.launch_angle E angle = 0 := by
    simp [launcher.launch_angle, hdir, hatan]
  obtain ⟨h, hh, hm⟩ := launch_loop_nine E (E.get_info self angle).pos
    (self.launch_angle E angle) angle fuel hfuel
  have hpos : h.map (fun e => e.2.info.pos) =
      (List.range 9).map (fun (k : Nat) => (E.get_info self angle).pos +
        ⟨0, 4 - ((1 / 4 : ℚ) * k - 2) ^ 2, (1 / 4 : ℚ) * k⟩) := by
    have hmap : h.map (fun e => e.2.info.pos) =
        (List.range 9).map (fun (k : Nat) =>
          TRANS_TO_LAUNCH E ⟨0, GET_Y ((k : ℚ) * STATIC_STEP), (k : ℚ) * STATIC_STEP⟩
            (self.launch_angle E angle) (E.get_info self angle).pos) := by
      have := congrArg (List.map (fun c => c.2.1.pos)) hm
      simpa [List.map_map, Function.comp] using this
    rw [hmap]
    apply List.map_congr_left
    intro k _
    rw [hla, vector3f.ext_iff3]
    simp [TRANS_TO_LAUNCH, hrot, GET_Y, STATIC_STEP, add_comm, mul_comm]
  refine ⟨hdir, hla, ⟨some (E.alloc 0), h⟩, ?_, hpos, ?_, ?_⟩
  · rw [launcher_get_next_of_no_esc E fuel self angle current hesc, hh]
  · show (h.map (fun e => e.2.info.pos))[0]? = _
    rw [hpos, List.getElem?_map, List.getElem?_range (by norm_num)]
    simp [vector3f.ext_iff3]
    norm_num
  · intro k p q hk hp hq
    show q.z = p.z + STATIC_STEP
    have hp2 : (h.map (fun e => e.2.info.pos))[k]? = some p := hp
    have hq2 : (h.map (fun e => e.2.info.pos))[k + 1]? = some q := hq
    rw [hpos, List.getElem?_map, List.getElem?_range (by omega)] at hp2
    rw [hpos, List.getElem?_map, List.getElem?_range hk] at hq2
    simp at hp2 hq2
    rw [← hp2, ← hq2]
    simp [STATIC_STEP]
    ring

/-- Witness of C13 on `launch_env none`: the launcher at `(5, 6, 7)` without a
real-prev tile; the first tile is at `(5, 6, 7)`, the last at `(5, 10, 9)`. -/
theorem launch_chain_straight_witness :
    ((⟨(), none, none⟩ : launcher Unit).get_next (launch_env none) 9 ⟨0, 0, 0⟩ none).map
      (fun r => r.generated.map (fun e => e.2.info.pos)) =
      some [⟨5, 6, 7⟩, ⟨5, 6 + 15 / 16, 7 + 1 / 4⟩, ⟨5, 6 + 7 / 4, 7 + 1 / 2⟩,
        ⟨5, 6 + 39 / 16, 7 + 3 / 4⟩, ⟨5, 9, 8⟩, ⟨5, 6 + 55 / 16, 8 + 1 / 4⟩,
        ⟨5, 6 + 15 / 4, 8 + 1 / 2⟩, ⟨5, 6 + 63 / 16, 8 + 3 / 4⟩, ⟨5, 10, 9⟩] ∧
    ((⟨(), none, none⟩ : launcher Unit).direction (launch_env none) ⟨0, 0, 0⟩ = ⟨0, 0, 1⟩ ∧
    (⟨(), none, none⟩ : launcher Unit).launch_angle (launch_env none) ⟨0, 0, 0⟩ = 0 ∧
    ∃ r, (⟨(), none, none⟩ : launcher Unit).get_next (launch_env none) 9 ⟨0, 0, 0⟩ none =
        some r ∧
      r.generated.map (fun e => e.2.info.pos) =
        (List.range 9).map (fun (k : Nat) =>
          ((launch_env none).get_info ⟨(), none, none⟩ ⟨0, 0, 0⟩).pos +
          ⟨0, 4 - ((1 / 4 : ℚ) * k - 2) ^ 2, (1 / 4 : ℚ) * k⟩) ∧
      (r.generated.map (fun e => e.2.info.pos))[0]? =
        some ((launch_env none).get_info ⟨(), none, none⟩ ⟨0, 0, 0⟩).pos ∧
      ∀ k p q, k + 1 < 9 →
        (r.generated.map (fun e => e.2.info.pos))[k]? = some p →
        (r.generated.map (fun e => e.2.info.pos))[k + 1]? = some q →
        q.z = p.z + STATIC_STEP) :=
  ⟨by norm_num [launcher.get_next, launch_env, launch_loop, VERTEX_Z, STATIC_STEP,
      segments_set_real_next, TRANS_TO_LAUNCH, GET_Y, vector3f.add_def],
   launch_chain_straight (launch_env none) 9 ⟨(), none, none⟩ ⟨0, 0, 0⟩ none rfl rfl rfl
    (fun _ => rfl) (le_refl 9)⟩

/-- C14: when `launcher::get_next` generates a chain (fresh addresses from `new`), it
returns the first generated tile, the `z = 0` one, whose `prev` is the launcher;
the tiles are linked through `real_next` in generation order: the k-th tile has the
tile generated just before it as `prev`, the tile generated just after it as
`real_next` (the last one has none), and the hole as `next`; the nine addresses are
distinct, so following `real_next` from the head visits each tile once. -/
theorem launch_chain_linked {ε : Type} (E : LaunchEnv ε) (fuel : Nat)
    (self : launcher ε) (angle : vector3f) (current : Option grid_ptr)
    (hesc : E.get_esc self angle = none) (hfuel : 9 ≤ fuel)
    (hinj : Function.Injective E.alloc) (hthis : ∀ k, E.alloc k ≠ E.this) :
    ∃ r, self.get_next E fuel angle current = some r ∧
      r.ret = some (E.alloc 0) ∧
      r.generated.map (fun e => e.1) = (List.range 9).map E.alloc ∧
      (r.generated.map (fun e => e.1)).Nodup ∧
      (∀ e ∈ r.generated, e.1 ≠ E.this) ∧
      ∀ k, k < 9 → ∃ seg, r.generated[k]? = some (E.alloc k, seg) ∧
        seg.info.pos = TRANS_TO_LAUNCH E
          ⟨0, GET_Y ((k : ℚ) * STATIC_STEP), (k : ℚ) * STATIC_STEP⟩
          (self.launch_angle E angle) (E.get_info self angle).pos ∧
        seg.prev = some (if k = 0 then E.this else E.alloc (k - 1)) ∧
        seg.next = E.hole_grid ∧
        seg.real_next = if k < 8 then some (E.alloc (k + 1)) else none := by
  have hh := launch_loop_chain E (E.get_info self angle).pos (self.launch_angle E angle)
    angle fuel hfuel hinj hthis
  rw [launcher_get_next_of_no_esc E fuel self angle current hesc, hh]
  refine ⟨_, rfl, rfl, ?_, ?_, ?_, ?_⟩
  · simp [List.map_map, Function.comp]
  · simp only [List.map_map, Function.comp]
    exact (List.nodup_range 9).map hinj
  · intro e he
    simp only [List.mem_map] at he
    obtain ⟨k, _, rfl⟩ := he
    exact hthis k
  · intro k hk
    refine ⟨⟨⟨TRANS_TO_LAUNCH E ⟨0, GET_Y ((k : ℚ) * STATIC_STEP), (k : ℚ) * STATIC_STEP⟩
      (self.launch_angle E angle) (E.get_info self angle).pos⟩,
      some (if k = 0 then E.this else E.alloc (k - 1)), E.hole_grid, angle,
      if k < 8 then some (E.alloc (k + 1)) else none⟩, ?_, rfl, rfl, rfl, rfl⟩
    simp [List.getElem?_map, List.getElem?_range hk]

/-- Witness of C14 on `launch_env none`, whose k-th new tile has the address
`10 + k` and whose launcher has the address `0`. -/
theorem launch_chain_linked_witness :
    ((⟨(), none, none⟩ : launcher Unit).get_next (launch_env none) 9 ⟨0, 0, 0⟩ none).map
      (fun r => (r.ret, r.generated.map (fun e => (e.1, e.2.prev, e.2.next, e.2.real_next)))) =
      some (some 10,
        [(10, some 0, some 1, some 11), (11, some 10, some 1, some 12),
         (12, some 11, some 1, some 13), (13, some 12, some 1, some 14),
         (14, some 13, some 1, some 15), (15, some 14, some 1, some 16),
         (16, some 15, some 1, some 17), (17, some 16, some 1, some 18),
         (18, some 17, some 1, none)]) ∧
    ∃ r, (⟨(), none, none⟩ : launcher Unit).get_next (launch_env none) 9 ⟨0, 0, 0⟩ none =
        some r ∧
      r.ret = some ((launch_env none).alloc 0) ∧
      r.generated.map (fun e => e.1) = (List.range 9).map (launch_env none).alloc ∧
      (r.generated.map (fun e => e.1)).Nodup ∧
      (∀ e ∈ r.generated, e.1 ≠ (launch_env none).this) ∧
      ∀ k, k < 9 → ∃ seg, r.generated[k]? = some ((launch_env none).alloc k, seg) ∧
        seg.info.pos = TRANS_TO_LAUNCH (launch_env none)
          ⟨0, GET_Y ((k : ℚ) * STATIC_STEP), (k : ℚ) * STATIC_STEP⟩
          ((⟨(), none, none⟩ : launcher Unit).launch_angle (launch_env none) ⟨0, 0, 0⟩)
          ((launch_env none).get_info ⟨(), none, none⟩ ⟨0, 0, 0⟩).pos ∧
        seg.prev = some (if k = 0 then (launch_env none).this
          else (launch_env none).alloc (k - 1)) ∧
        seg.next = (launch_env none).hole_grid ∧
        seg.real_next = if k < 8 then some ((launch_env none).alloc (k + 1)) else none :=
  ⟨by norm_num [launcher.get_next, launch_env, launch_loop, VERTEX_Z, STATIC_STEP,
      segments_set_real_next],
   launch_chain_linked (launch_env none) 9 ⟨(), none, none⟩ ⟨0, 0, 0⟩ none rfl (le_refl 9)
    (fun a b hab => by simpa [launch_env] using hab)
    (fun k => by simp [launch_env])⟩

/-- The loop records a `set_real_next` call only on tiles whose address is not the
launcher's: the call `temp1->set_real_next(temp2)` is guarded by `temp1 != this`. -/
theorem launch_loop_real_next_not_this {ε : Type} (E : LaunchEnv ε) (pos : vector3f)
    (la : ℚ) (angle : vector3f) :
    ∀ (fuel : Nat) (z : ℚ) (temp1 : grid_ptr) (b : Option grid_ptr)
      (heap : List (grid_ptr × launch_segment))
      (r : Option grid_ptr × List (grid_ptr × launch_segment)),
      (∀ e ∈ heap, e.2.real_next ≠ none → e.1 ≠ E.this) →
      launch_loop E pos la angle fuel z temp1 b heap = some r →
      ∀ e ∈ r.2, e.2.real_next ≠ none → e.1 ≠ E.this := by
  intro fuel
  induction fuel with
  | zero =>
    intro z temp1 b heap r hI h
    by_cases hz : z ≤ VERTEX_Z
    · simp [launch_loop, hz] at h
    · rw [launch_loop_exit E pos la angle _ z temp1 b heap hz] at h
      cases h
      exact hI
  | succ n ih =>
    intro z temp1 b heap r hI h
    by_cases hz : z ≤ VERTEX_Z
    · simp only [launch_loop, hz, if_true] at h
      refine ih _ _ _ _ _ ?_ h
      have hI1 : ∀ e ∈ heap ++ [(E.alloc heap.length,
          (⟨⟨TRANS_TO_LAUNCH E ⟨0, GET_Y z, z⟩ la pos⟩, some temp1, E.hole_grid, angle,
            none⟩ : launch_segment))], e.2.real_next ≠ none → e.1 ≠ E.this := by
        intro e he hne
        rcases List.mem_append.mp he with he | he
        · exact hI e he hne
        · rw [List.mem_singleton] at he
          subst he
          exact absurd rfl hne
      intro e he hne
      by_cases ht : temp1 = E.this
      · rw [if_neg (not_not.mpr ht)] at he
        exact hI1 e he hne
      · rw [if_pos ht] at he
        unfold segments_set_real_next at he
        obtain ⟨a, ha, hae⟩ := List.mem_map.mp he
        by_cases hat : a.1 = temp1
        · rw [if_pos hat] at hae
          subst hae
          exact fun h2 => ht (hat.symm.trans h2)
        · rw [if_neg hat] at hae
          subst hae
          exact hI1 a ha hne
    · rw [launch_loop_exit E pos la angle _ z temp1 b heap hz] at h
      cases h
      exact hI

/-- C18: the chain is regenerated on every call and nothing is cached on the
launcher: with no matching range, a call builds nine new tiles and leaves the
launcher as it was (its `real_prev` and `real_next` included: every `set_real_next`
call lands on a generated tile, never on the launcher); a second call on the
launcher so left, whatever addresses `new` hands out then, again builds nine new
tiles, at those new addresses and at the same positions as the first call's. -/
theorem launch_chain_regenerated {ε : Type} (E : LaunchEnv ε) (alloc2 : Nat → grid_ptr)
    (fuel fuel2 : Nat) (self : launcher ε) (angle : vector3f)
    (current current2 : Option grid_ptr)
    (hesc : E.get_esc self angle = none) (hfuel : 9 ≤ fuel) (hfuel2 : 9 ≤ fuel2) :
    self.get_next_this E fuel angle = some self ∧
    (∀ s, self.get_next_this E fuel angle = some s →
      s.get_real_prev = self.get_real_prev ∧ s.get_real_next = self.get_real_next) ∧
    ∃ r1 r2, self.get_next E fuel angle current = some r1 ∧
      self.get_next { E with alloc := alloc2 } fuel2 angle current2 = some r2 ∧
      (∀ s, self.get_next_this E fuel angle = some s →
        s.get_next { E with alloc := alloc2 } fuel2 angle current2 = some r2) ∧
      r1.generated.length = r2.generated.length ∧
      r1.generated.map (fun e => e.2.info.pos) = r2.generated.map (fun e => e.2.info.pos) ∧
      r1.generated.length = 9 ∧ r2.generated.length = 9 ∧
      r1.ret = some (E.alloc 0) ∧ r2.ret = some (alloc2 0) ∧
      r1.generated.map (fun e => e.1) = (List.range 9).map E.alloc ∧
      r2.generated.map (fun e => e.1) = (List.range 9).map alloc2 ∧
      r1.generated.map (fun e => e.2.info.pos) =
        (List.range 9).map (fun (k : Nat) =>
          TRANS_TO_LAUNCH E ⟨0, GET_Y ((k : ℚ) * STATIC_STEP), (k : ℚ) * STATIC_STEP⟩
            (self.launch_angle E angle) (E.get_info self angle).pos) ∧
      (∀ e ∈ r1.generated, e.2.real_next ≠ none → e.1 ≠ E.this) ∧
      (∀ e ∈ r2.generated, e.2.real_next ≠ none → e.1 ≠ E.this) := by
  have hself : self.get_next_this E fuel angle = some self := by
    simp only [launcher.get_next_this, hesc]
    exact launch_loop_this_id E 9 fuel 0 E.this 0 self (by norm_num) hfuel
  obtain ⟨h1, hh1, hm1⟩ := launch_loop_nine E (E.get_info self angle).pos
    (self.launch_angle E angle) angle fuel hfuel
  obtain ⟨h2, hh2, hm2⟩ := launch_loop_nine { E with alloc := alloc2 }
    (({ E with alloc := alloc2 } : LaunchEnv ε).get_info self angle).pos
    (self.launch_angle { E with alloc := alloc2 } angle) angle fuel2 hfuel2
  have hr2 : self.get_next { E with alloc := alloc2 } fuel2 angle current2 =
      some ⟨some (alloc2 0), h2⟩ := by
    rw [launcher_get_next_of_no_esc { E with alloc := alloc2 } fuel2 self angle current2
      hesc, hh2]
  have hl1 : h1.length = 9 := by
    have e1 := congrArg List.length hm1
    simpa using e1
  have hl2 : h2.length = 9 := by
    have e2 := congrArg List.length hm2
    simpa using e2
  have hp1 : h1.map (fun e => e.2.info.pos) =
      (List.range 9).map (fun (k : Nat) =>
        TRANS_TO_LAUNCH E ⟨0, GET_Y ((k : ℚ) * STATIC_STEP), (k : ℚ) * STATIC_STEP⟩
          (self.launch_angle E angle) (E.get_info self angle).pos) := by
    have e1 := congrArg (List.map (fun c => c.2.1.pos)) hm1
    simpa [List.map_map, Function.comp] using e1
  have hp2 : h2.map (fun e => e.2.info.pos) =
      (List.range 9).map (fun (k : Nat) =>
        TRANS_TO_LAUNCH E ⟨0, GET_Y ((k : ℚ) * STATIC_STEP), (k : ℚ) * STATIC_STEP⟩
          (self.launch_angle E angle) (E.get_info self angle).pos) := by
    have e2 := congrArg (List.map (fun c => c.2.1.pos)) hm2
    simp only [List.map_map, Function.comp] at e2
    exact e2
  have ha1 : h1.map (fun e => e.1) = (List.range 9).map E.alloc := by
    have e1 := congrArg (List.map (fun c => c.1)) hm1
    simpa [List.map_map, Function.comp] using e1
  have ha2 : h2.map (fun e => e.1) = (List.range 9).map alloc2 := by
    have e2 := congrArg (List.map (fun c => c.1)) hm2
    simpa [List.map_map, Function.comp] using e2
  refine ⟨hself, ?_, ⟨some (E.alloc 0), h1⟩, ⟨some (alloc2 0), h2⟩, ?_, hr2, ?_,
    hl1.trans hl2.symm, hp1.trans hp2.symm, hl1, hl2, rfl, rfl, ha1, ha2, hp1, ?_, ?_⟩
  · intro s hs
    rw [hself] at hs
    cases hs
    exact ⟨rfl, rfl⟩
  · rw [launcher_get_next_of_no_esc E fuel self angle current hesc, hh1]
  · intro s hs
    rw [hself] at hs
    cases hs
    exact hr2
  · exact launch_loop_real_next_not_this E _ _ angle fuel 0 E.this none [] _
      (by simp) hh1
  · exact launch_loop_real_next_not_this { E with alloc := alloc2 } _ _ angle fuel2 0
      E.this none [] _ (by simp) hh2

/-- Witness of C18 on `launch_env none`: the first call builds its nine tiles at the
addresses `10 .. 18`, the second call, handed the addresses `30 + k`, builds nine
new ones at `30 .. 38`. -/
theorem launch_chain_regenerated_witness :
    (launch_env none).get_esc ⟨(), none, none⟩ ⟨0, 0, 0⟩ = none ∧
    ((⟨(), none, none⟩ : launcher Unit).get_next (launch_env none) 9 ⟨0, 0, 0⟩ none).map
      (fun r => (r.ret, r.generated.map (fun e => e.1))) =
      some (some 10, [10, 11, 12, 13, 14, 15, 16, 17, 18]) ∧
    ((⟨(), none, none⟩ : launcher Unit).get_next
      { launch_env none with alloc := fun k => 30 + k } 9 ⟨0, 0, 0⟩ (some 10)).map
      (fun r => (r.ret, r.generated.map (fun e => e.1))) =
      some (some 30, [30, 31, 32, 33, 34, 35, 36, 37, 38]) ∧
    ((⟨(), none, none⟩ : launcher Unit).get_next_this (launch_env none) 9 ⟨0, 0, 0⟩ =
      some ⟨(), none, none⟩ ∧
    (∀ s, (⟨(), none, none⟩ : launcher Unit).get_next_this (launch_env none) 9 ⟨0, 0, 0⟩ =
        some s →
      s.get_real_prev = (⟨(), none, none⟩ : launcher Unit).get_real_prev ∧
      s.get_real_next = (⟨(), none, none⟩ : launcher Unit).get_real_next) ∧
    ∃ r1 r2, (⟨(), none, none⟩ : launcher Unit).get_next (launch_env none) 9 ⟨0, 0, 0⟩
        none = some r1 ∧
      (⟨(), none, none⟩ : launcher Unit).get_next
        { launch_env none with alloc := fun k => 30 + k } 9 ⟨0, 0, 0⟩ (some 10) = some r2 ∧
      (∀ s, (⟨(), none, none⟩ : launcher Unit).get_next_this (launch_env none) 9
          ⟨0, 0, 0⟩ = some s →
        s.get_next { launch_env none with alloc := fun k => 30 + k } 9 ⟨0, 0, 0⟩
          (some 10) = some r2) ∧
      r1.generated.length = r2.generated.length ∧
      r1.generated.map (fun e => e.2.info.pos) = r2.generated.map (fun e => e.2.info.pos) ∧
      r1.generated.length = 9 ∧ r2.generated.length = 9 ∧
      r1.ret = some ((launch_env none).alloc 0) ∧ r2.ret = some ((fun k => 30 + k) 0) ∧
      r1.generated.map (fun e => e.1) = (List.range 9).map (launch_env none).alloc ∧
      r2.generated.map (fun e => e.1) = (List.range 9).map (fun k => 30 + k) ∧
      r1.generated.map (fun e => e.2.info.pos) =
        (List.range 9).map (fun (k : Nat) =>
          TRANS_TO_LAUNCH (launch_env none)
            ⟨0, GET_Y ((k : ℚ) * STATIC_STEP), (k : ℚ) * STATIC_STEP⟩
            ((⟨(), none, none⟩ : launcher Unit).launch_angle (launch_env none) ⟨0, 0, 0⟩)
            ((launch_env none).get_info ⟨(), none, none⟩ ⟨0, 0, 0⟩).pos) ∧
      (∀ e ∈ r1.generated, e.2.real_next ≠ none → e.1 ≠ (launch_env none).this) ∧
      (∀ e ∈ r2.generated, e.2.real_next ≠ none → e.1 ≠ (launch_env none).this)) :=
  ⟨rfl,
   by norm_num [launcher.get_next, launch_env, launch_loop, VERTEX_Z, STATIC_STEP,
      segments_set_real_next],
   by norm_num [launcher.get_next, launch_env, launch_loop, VERTEX_Z, STATIC_STEP,
      segments_set_real_next],
   launch_chain_regenerated (launch_env none) (fun k => 30 + k) 9 9 ⟨(), none, none⟩
    ⟨0, 0, 0⟩ none (some 10) rfl (le_refl 9) (le_refl 9)⟩

/-! ## The scan of several levels -/

/-- A level with a hit ends the scan of the levels. -/
theorem check_levels_loop_hit (f : grid_ptr → vector3f → vector3f → Bool)
    (pos vec angle : vector3f) (y : ℚ) (tiles : GRID_PTR_SET) (rest : LEVEL_MAP)
    (pt : vector3f) (r : grid_ptr) (he : end_pt pos vec y = some pt)
    (hc : check_level f tiles pt angle = some r) :
    check_levels_loop f pos vec angle ((y, tiles) :: rest) none = some r := by
  simp only [check_levels_loop, he, hc]

/-- A level without a hit (no point from `end_pt`, or no tile passing the footprint
test at the point) passes the scan on to the remaining levels, with `g` still
`NULL`. -/
theorem check_levels_loop_miss (f : grid_ptr → vector3f → vector3f → Bool)
    (pos vec angle : vector3f) (y : ℚ) (tiles : GRID_PTR_SET) (rest : LEVEL_MAP)
    (hno : ∀ p, end_pt pos vec y = some p → check_level f tiles p angle = none) :
    check_levels_loop f pos vec angle ((y, tiles) :: rest) none =
      check_levels_loop f pos vec angle rest none := by
  cases he : end_pt pos vec y with
  | none => simp only [check_levels_loop, he]
  | some pt => simp only [check_levels_loop, he, hno pt he]

/-- A level either has a hit or has none. -/
theorem level_hit_or_miss (f : grid_ptr → vector3f → vector3f → Bool)
    (pos vec angle : vector3f) (y : ℚ) (tiles : GRID_PTR_SET) :
    (∃ pt r, end_pt pos vec y = some pt ∧ check_level f tiles pt angle = some r) ∨
    (∀ p, end_pt pos vec y = some p → check_level f tiles p angle = none) := by
  cases he : end_pt pos vec y with
  | none => exact Or.inr (by simp)
  | some pt =>
    cases hc : check_level f tiles pt angle with
    | none =>
      refine Or.inr ?_
      intro p hp
      cases hp
      exact hc
    | some r => exact Or.inl ⟨pt, r, rfl, hc⟩

/-- The scan finds nothing exactly when no level has a hit: at every level either
`end_pt` gives no point or no tile passes the footprint test at the point. -/
theorem check_levels_loop_eq_none_iff (f : grid_ptr → vector3f → vector3f → Bool)
    (pos vec angle : vector3f) (levels : LEVEL_MAP) :
    check_levels_loop f pos vec angle levels none = none ↔
      ∀ e ∈ levels, ∀ p, end_pt pos vec e.1 = some p → check_level f e.2 p angle = none := by
  induction levels with
  | nil => simp [check_levels_loop]
  | cons a rest ih =>
    obtain ⟨y, tiles⟩ := a
    rcases level_hit_or_miss f pos vec angle y tiles with ⟨pt, r, he, hc⟩ | hno
    · rw [check_levels_loop_hit f pos vec angle y tiles rest pt r he hc]
      constructor
      · intro h; exact absurd h (by simp)
      · intro h
        have := h (y, tiles) (List.mem_cons_self _ _) pt he
        rw [hc] at this
        exact absurd this (by simp)
    · rw [check_levels_loop_miss f pos vec angle y tiles rest hno, ih]
      constructor
      · intro h e he
        rcases List.mem_cons.mp he with rfl | he
        · exact hno
        · exact h e he
      · intro h e he
        exact h e (List.mem_cons_of_mem _ he)

/-- The scan returns a tile exactly when it is the hit of the first level, in
visiting order, that has one. -/
theorem check_levels_loop_eq_some_iff (f : grid_ptr → vector3f → vector3f → Bool)
    (pos vec angle : vector3f) (levels : LEVEL_MAP) (g : grid_ptr) :
    check_levels_loop f pos vec angle levels none = some g ↔
      ∃ pre y tiles post pt, levels = pre ++ (y, tiles) :: post ∧
        (∀ e ∈ pre, ∀ p, end_pt pos vec e.1 = some p → check_level f e.2 p angle = none) ∧
        end_pt pos vec y = some pt ∧ check_level f tiles pt angle = some g := by
  induction levels with
  | nil => simp [check_levels_loop]
  | cons a rest ih =>
    obtain ⟨y, tiles⟩ := a
    rcases level_hit_or_miss f pos vec angle y tiles with ⟨pt, r, he, hc⟩ | hno
    · rw [check_levels_loop_hit f pos vec angle y tiles rest pt r he hc]
      constructor
      · intro h
        cases h
        exact ⟨[], y, tiles, rest, pt, rfl, by simp, he, hc⟩
      · rintro ⟨pre, y1, tiles1, post, pt1, hl, hpre, hpt, hg⟩
        cases pre with
        | nil =>
          simp only [List.nil_append, List.cons.injEq, Prod.mk.injEq] at hl
          obtain ⟨⟨rfl, rfl⟩, -⟩ := hl
          rw [he] at hpt
          cases hpt
          rw [hc] at hg
          exact hg
        | cons a pre =>
          simp only [List.cons_append, List.cons.injEq] at hl
          have h1 := hpre a (List.mem_cons_self _ _) pt (by rw [← hl.1]; exact he)
          rw [← hl.1, hc] at h1
          exact absurd h1 (by simp)
    · rw [check_levels_loop_miss f pos vec angle y tiles rest hno, ih]
      constructor
      · rintro ⟨pre, y1, tiles1, post, pt, hl, hpre, hpt, hg⟩
        refine ⟨(y, tiles) :: pre, y1, tiles1, post, pt, by simp [hl], ?_, hpt, hg⟩
        intro e he
        rcases List.mem_cons.mp he with rfl | he
        · exact hno
        · exact hpre e he
      · rintro ⟨pre, y1, tiles1, post, pt, hl, hpre, hpt, hg⟩
        cases pre with
        | nil =>
          simp only [List.nil_append, List.cons.injEq, Prod.mk.injEq] at hl
          obtain ⟨⟨rfl, rfl⟩, -⟩ := hl
          rw [hno pt hpt] at hg
          exact absurd hg (by simp)
        | cons a pre =>
          simp only [List.cons_append, List.cons.injEq] at hl
          exact ⟨pre, y1, tiles1, post, pt, hl.2,
            fun e he => hpre e (List.mem_cons_of_mem _ he), hpt, hg⟩

/-- The forward scan is the loop over the entries from `begin()` on. -/
theorem check_levels_above_eq_loop (f : grid_ptr → vector3f → vector3f → Bool)
    (levels : LEVEL_MAP) (pos vec angle : vector3f) :
    check_levels_above f levels pos vec angle =
      check_levels_loop f pos vec angle levels none := by
  cases levels with
  | nil => simp [check_levels_above, check_levels_loop]
  | cons a rest => simp [check_levels_above]

/-- The backward scan is the loop over the entries from the last one down to
`begin()`. -/
theorem check_levels_below_eq_loop (f : grid_ptr → vector3f → vector3f → Bool)
    (levels : LEVEL_MAP) (pos vec angle : vector3f) :
    check_levels_below f levels pos vec angle =
      check_levels_loop f pos vec angle levels.reverse none := by
  cases levels with
  | nil => simp [check_levels_below, check_levels_loop]
  | cons a rest => simp [check_levels_below]

/-- C17: on a level map whose iteration order is by ascending height,
`check_levels_above` scans upward and `check_levels_below` scans downward (from the
highest key to the lowest, the lowest included): each returns the tile found by
`check_level` at the first level, in that order, where `end_pt` yields a point and
a tile passes the footprint test, so every level scanned before it (all lower for
the upward scan, all higher for the downward scan) has no hit; each returns `NULL`
exactly when no level of the map has a hit, in particular on an empty map. -/
theorem check_levels_nearest_first (f : grid_ptr → vector3f → vector3f → Bool)
    (levels : LEVEL_MAP) (pos vec angle : vector3f)
    (hsorted : levels.Pairwise (fun a b => a.1 < b.1)) :
    (∀ g, check_levels_above f levels pos vec angle = some g ↔
      ∃ pre y tiles post pt, levels = pre ++ (y, tiles) :: post ∧
        (∀ e ∈ pre, e.1 < y ∧
          ∀ p, end_pt pos vec e.1 = some p → check_level f e.2 p angle = none) ∧
        end_pt pos vec y = some pt ∧ check_level f tiles pt angle = some g) ∧
    (∀ g, check_levels_below f levels pos vec angle = some g ↔
      ∃ pre y tiles post pt, levels = pre ++ (y, tiles) :: post ∧
        (∀ e ∈ post, y < e.1 ∧
          ∀ p, end_pt pos vec e.1 = some p → check_level f e.2 p angle = none) ∧
        end_pt pos vec y = some pt ∧ check_level f tiles pt angle = some g) ∧
    (check_levels_above f levels pos vec angle = none ↔
      ∀ e ∈ levels, ∀ p, end_pt pos vec e.1 = some p → check_level f e.2 p angle = none) ∧
    (check_levels_below f levels pos vec angle = none ↔
      ∀ e ∈ levels, ∀ p, end_pt pos vec e.1 = some p → check_level f e.2 p angle = none) ∧
    check_levels_above f [] pos vec angle = none ∧
    check_levels_below f [] pos vec angle = none := by
  refine ⟨?_, ?_, ?_, ?_, rfl, rfl⟩
  · intro g
    rw [check_levels_above_eq_loop, check_levels_loop_eq_some_iff]
    constructor
    · rintro ⟨pre, y, tiles, post, pt, hl, hpre, hpt, hg⟩
      refine ⟨pre, y, tiles, post, pt, hl, ?_, hpt, hg⟩
      intro e he
      rw [hl, List.pairwise_append] at hsorted
      exact ⟨hsorted.2.2 e he (y, tiles) (List.mem_cons_self _ _), hpre e he⟩
    · rintro ⟨pre, y, tiles, post, pt, hl, hpre, hpt, hg⟩
      exact ⟨pre, y, tiles, post, pt, hl, fun e he => (hpre e he).2, hpt, hg⟩
  · intro g
    rw [check_levels_below_eq_loop, check_levels_loop_eq_some_iff]
    constructor
    · rintro ⟨pre, y, tiles, post, pt, hl, hpre, hpt, hg⟩
      have hl2 : levels = post.reverse ++ (y, tiles) :: pre.reverse := by
        have := congrArg List.reverse hl
        simpa using this
      refine ⟨post.reverse, y, tiles, pre.reverse, pt, hl2, ?_, hpt, hg⟩
      intro e he
      rw [hl2, List.pairwise_append, List.pairwise_cons] at hsorted
      exact ⟨hsorted.2.1.1 e he, hpre e (List.mem_reverse.mp he)⟩
    · rintro ⟨pre, y, tiles, post, pt, hl, hpost, hpt, hg⟩
      refine ⟨post.reverse, y, tiles, pre.reverse, pt, by simp [hl], ?_, hpt, hg⟩
      intro e he
      exact (hpost e (List.mem_reverse.mp he)).2
  · rw [check_levels_above_eq_loop, check_levels_loop_eq_none_iff]
  · rw [check_levels_below_eq_loop, check_levels_loop_eq_none_iff]
    constructor
    · intro h e he
      exact h e (List.mem_reverse.mpr he)
    · intro h e he
      exact h e (List.mem_reverse.mp he)

/-- Witness of C17: the map `2 ↦ [5, 7], 3 ↦ [7]` scanned from `(1, 1, 0)` along
`(0, 4, 0)`: both levels hold tile `7` at the crossing point, the upward scan finds
it at height `2`, the downward scan at height `3`. -/
theorem check_levels_nearest_first_witness :
    ([(2, [5, 7]), (3, [7])] : LEVEL_MAP).Pairwise (fun a b => a.1 < b.1) ∧
    check_levels_above stage_levels.is_pt_on [(2, [5, 7]), (3, [7])] ⟨1, 1, 0⟩ ⟨0, 4, 0⟩
      ⟨0, 0, 0⟩ = some 7 ∧
    (∃ pre y tiles post pt, ([(2, [5, 7]), (3, [7])] : LEVEL_MAP) = pre ++ (y, tiles) :: post ∧
      (∀ e ∈ pre, e.1 < y ∧
        ∀ p, end_pt ⟨1, 1, 0⟩ ⟨0, 4, 0⟩ e.1 = some p →
          check_level stage_levels.is_pt_on e.2 p ⟨0, 0, 0⟩ = none) ∧
      end_pt ⟨1, 1, 0⟩ ⟨0, 4, 0⟩ y = some pt ∧
      check_level stage_levels.is_pt_on tiles pt ⟨0, 0, 0⟩ = some 7) := by
  have hs : ([(2, [5, 7]), (3, [7])] : LEVEL_MAP).Pairwise (fun a b => a.1 < b.1) := by
    simp
    norm_num
  have ha : check_levels_above stage_levels.is_pt_on [(2, [5, 7]), (3, [7])] ⟨1, 1, 0⟩
      ⟨0, 4, 0⟩ ⟨0, 0, 0⟩ = some 7 := by
    norm_num [check_levels_above, check_levels_loop, end_pt, check_level, stage_levels,
      vector3f.add_def, vector3f.mul_def]
  exact ⟨hs, ha, ((check_levels_nearest_first stage_levels.is_pt_on [(2, [5, 7]), (3, [7])]
    ⟨1, 1, 0⟩ ⟨0, 4, 0⟩ ⟨0, 0, 0⟩ hs).1 7).mp ha⟩

/-! ## launcher::init and the real links -/

/-- C15: after `launcher::init` (with ranges, or with an escape angle and
`normal_prev` / `normal_next`) the prev and next handed to `escgrid::init` are both
the hole, whatever prev and next the launcher was given, while `get_real_prev()`
and `get_real_next()` return the prev and next given; afterwards `set_real_next(g)`
makes `get_real_next()` return `g` and leaves `get_real_prev()` as it was, and
`set_real_prev(g)` makes `get_real_prev()` return `g` and leaves `get_real_next()`
as it was. -/
theorem launcher_init_real_links {ε : Type} (E : LaunchEnv ε) (my_info : grid_info_t)
    (my_prev my_next : Option grid_ptr) (my_escranges : Option (List angle_range))
    (my_escs : Option (List (Option grid_ptr))) (my_num_escs : Int)
    (my_escangle : vector3f) (my_normal_info my_esc_info : grid_info_t)
    (my_normal_prev my_esc_prev my_normal_next my_esc_next : Option grid_ptr)
    (self : launcher ε) (g : Option grid_ptr) :
    (launcher.init E my_info my_prev my_next my_escranges my_escs my_num_escs).esc =
      E.escgrid_init_ranges my_info E.hole_grid E.hole_grid my_escranges my_escs
        my_num_escs ∧
    (∀ other_prev other_next : Option grid_ptr,
      (launcher.init E my_info other_prev other_next my_escranges my_escs my_num_escs).esc =
        (launcher.init E my_info my_prev my_next my_escranges my_escs my_num_escs).esc) ∧
    (launcher.init E my_info my_prev my_next my_escranges my_escs
      my_num_escs).get_real_prev = my_prev ∧
    (launcher.init E my_info my_prev my_next my_escranges my_escs
      my_num_escs).get_real_next = my_next ∧
    launcher.init_plain E my_info my_prev my_next =
      launcher.init E my_info my_prev my_next none none 0 ∧
    (launcher.init_angle E my_escangle my_normal_info my_esc_info my_normal_prev
      my_esc_prev my_normal_next my_esc_next).esc =
      E.escgrid_init_angle my_escangle my_normal_info my_esc_info E.hole_grid my_esc_prev
        E.hole_grid my_esc_next ∧
    (launcher.init_angle E my_escangle my_normal_info my_esc_info my_normal_prev
      my_esc_prev my_normal_next my_esc_next).get_real_prev = my_normal_prev ∧
    (launcher.init_angle E my_escangle my_normal_info my_esc_info my_normal_prev
      my_esc_prev my_normal_next my_esc_next).get_real_next = my_normal_next ∧
    (self.set_real_next g).get_real_next = g ∧
    (self.set_real_next g).get_real_prev = self.get_real_prev ∧
    (self.set_real_prev g).get_real_prev = g ∧
    (self.set_real_prev g).get_real_next = self.get_real_next :=
  ⟨rfl, fun _ _ => rfl, rfl, rfl, rfl, rfl, rfl, rfl, rfl, rfl, rfl, rfl⟩

/-! ## isect_grid::get_info and init_to_null -/

/-- C19: `isect_grid::get_info(angle)` is the info of the camera-override tile,
`cam_grid->get_info(angle)`, whenever `cam_grid` is set, and the `static_grid` info
of the tile itself when `cam_grid` is `NULL` (and only then, as long as the
override's info is not the tile's own); after `init_to_null` both `level` and
`cam_grid` are `NULL`, so `get_info` is then the `static_grid` one. -/
theorem isect_get_info_cases {σ : Type} (W : Stage σ) (self : isect_grid σ)
    (angle : vector3f) (base : static_grid σ) (level_y : ℚ) :
    (∀ c, self.cam_grid = some c → self.get_info W angle = W.get_info c angle) ∧
    (self.cam_grid = none → self.get_info W angle = W.static_get_info self angle) ∧
    ((∀ c, W.get_info c angle ≠ W.static_get_info self angle) →
      (self.get_info W angle = W.static_get_info self angle ↔ self.cam_grid = none)) ∧
    (isect_grid.init_to_null base level_y).level = none ∧
    (isect_grid.init_to_null base level_y).cam_grid = none ∧
    (isect_grid.init_to_null base level_y).get_info W angle =
      W.static_get_info (isect_grid.init_to_null base level_y) angle := by
  refine ⟨?_, ?_, ?_, rfl, rfl, rfl⟩
  · intro c hc
    simp [isect_grid.get_info, hc]
  · intro hc
    simp [isect_grid.get_info, hc]
  · intro hne
    constructor
    · intro h
      cases hc : self.cam_grid with
      | none => rfl
      | some c =>
        simp only [isect_grid.get_info, hc] at h
        exact absurd h (hne c)
    · intro hc
      simp [isect_grid.get_info, hc]

/-- Witness of C19 on `stage_levels`: with the override `9` set the info is the one of
tile `9` (none in that stage), and without an override it is the tile's own. -/
theorem isect_get_info_cases_witness :
    tile_override.cam_grid = some 9 ∧
    tile_override.get_info stage_levels ⟨0, 0, 0⟩ = stage_levels.get_info 9 ⟨0, 0, 0⟩ ∧
    tile_rising.cam_grid = none ∧
    tile_rising.get_info stage_levels ⟨0, 0, 0⟩ =
      stage_levels.static_get_info tile_rising ⟨0, 0, 0⟩ ∧
    tile_rising.get_info stage_levels ⟨0, 0, 0⟩ = some ⟨⟨1, 1, 0⟩⟩ :=
  ⟨rfl,
   (isect_get_info_cases stage_levels tile_override ⟨0, 0, 0⟩ ⟨⟨⟨0, 0, 0⟩⟩, ()⟩ 0).1 9 rfl,
   rfl,
   (isect_get_info_cases stage_levels tile_rising ⟨0, 0, 0⟩ ⟨⟨⟨0, 0, 0⟩⟩, ()⟩ 0).2.1 rfl,
   rfl⟩

/-! ## The geometry of end_pt -/

/-- C20: over exact arithmetic, for `vec.y ≠ 0` every point `end_pt` returns lies on
the level plane (its y is `level_y`) and on the forward ray: it is
`prev_pos + vec * t` with `t = (level_y - prev_pos.y) / vec.y ≥ 0`, and `t = 0` with
the point `prev_pos` itself when `prev_pos.y = level_y`. For `vec.y = 0` the point
returned is `prev_pos + vec`, whose y is `prev_pos.y`, which need not be
`level_y`. -/
theorem end_pt_on_level_plane (prev_pos vec : vector3f) (level_y : ℚ) :
    (vec.y ≠ 0 → ∀ pt, end_pt prev_pos vec level_y = some pt →
      pt.y = level_y ∧
      0 ≤ (level_y - prev_pos.y) / vec.y ∧
      pt = prev_pos + vec * ((level_y - prev_pos.y) / vec.y) ∧
      (prev_pos.y = level_y → (level_y - prev_pos.y) / vec.y = 0 ∧ pt = prev_pos)) ∧
    (vec.y = 0 → end_pt prev_pos vec level_y = some (prev_pos + vec) ∧
      (prev_pos + vec).y = prev_pos.y) ∧
    (∃ p v : vector3f, ∃ ly : ℚ, v.y = 0 ∧
      ∃ pt, end_pt p v ly = some pt ∧ pt.y ≠ ly) := by
  refine ⟨?_, ?_, ?_⟩
  · intro hy pt hpt
    have hnn : end_pt prev_pos vec level_y ≠ none := by rw [hpt]; simp
    have hno : ¬ ((level_y - prev_pos.y > 0 ∧ vec.y < 0) ∨
        (level_y - prev_pos.y < 0 ∧ vec.y > 0)) := by
      intro ho
      exact hnn ((end_pt_eq_none_iff prev_pos vec level_y).mpr ⟨hy, ho⟩)
    have hsign : 0 ≤ (level_y - prev_pos.y) * vec.y := by
      rw [opposite_signs_iff] at hno
      exact not_lt.mp hno
    rw [end_pt_of_crossing prev_pos vec level_y hy hsign] at hpt
    cases hpt
    have ht : 0 ≤ (level_y - prev_pos.y) / vec.y := by
      have h2 : (level_y - prev_pos.y) / vec.y =
          (level_y - prev_pos.y) * vec.y / (vec.y * vec.y) := by
        field_simp
        ring
      rw [h2]
      exact div_nonneg hsign (mul_self_nonneg _)
    refine ⟨?_, ht, rfl, ?_⟩
    · simp only [vector3f.add_y, vector3f.mul_y]
      field_simp
    · intro hlev
      have h0 : (level_y - prev_pos.y) / vec.y = 0 := by
        rw [hlev]; simp
      refine ⟨h0, ?_⟩
      rw [h0, vector3f.ext_iff3]
      simp
  · intro hy
    exact ⟨end_pt_of_level prev_pos vec level_y hy, by simp [hy]⟩
  · refine ⟨⟨0, 2, 0⟩, ⟨1, 0, 0⟩, 1, rfl, ⟨1, 2, 0⟩, ?_, ?_⟩
    · norm_num [end_pt, vector3f.add_def]
    · norm_num

/-- Witness of C20: from `(0, 0, 0)` along `(1, 2, 0)` to the level `1`, the point is
`(1/2, 1, 0)`, at `t = 1/2`. -/
theorem end_pt_on_level_plane_witness :
    (⟨1, 2, 0⟩ : vector3f).y ≠ 0 ∧
    end_pt ⟨0, 0, 0⟩ ⟨1, 2, 0⟩ 1 = some ⟨1 / 2, 1, 0⟩ ∧
    ((⟨1 / 2, 1, 0⟩ : vector3f).y = 1 ∧
      0 ≤ ((1 : ℚ) - (⟨0, 0, 0⟩ : vector3f).y) / (⟨1, 2, 0⟩ : vector3f).y ∧
      (⟨1 / 2, 1, 0⟩ : vector3f) = ⟨0, 0, 0⟩ + (⟨1, 2, 0⟩ : vector3f) *
        (((1 : ℚ) - (⟨0, 0, 0⟩ : vector3f).y) / (⟨1, 2, 0⟩ : vector3f).y) ∧
      ((⟨0, 0, 0⟩ : vector3f).y = 1 →
        ((1 : ℚ) - (⟨0, 0, 0⟩ : vector3f).y) / (⟨1, 2, 0⟩ : vector3f).y = 0 ∧
        (⟨1 / 2, 1, 0⟩ : vector3f) = ⟨0, 0, 0⟩)) := by
  have hy : (⟨1, 2, 0⟩ : vector3f).y ≠ 0 := by norm_num
  have he : end_pt ⟨0, 0, 0⟩ ⟨1, 2, 0⟩ 1 = some ⟨1 / 2, 1, 0⟩ := by
    norm_num [end_pt, vector3f.add_def, vector3f.mul_def]
  exact ⟨hy, he, (end_pt_on_level_plane ⟨0, 0, 0⟩ ⟨1, 2, 0⟩ 1).1 hy ⟨1 / 2, 1, 0⟩ he⟩

/-! ## The endpoint of a tile lying on its own level -/

/-- C21: over exact arithmetic, when the cached position `q` of an intersection tile
has `q.y = level_y` (as after `init` from the same info), then for every real-prev
position `p` the endpoint computed in `get_next` is `q` itself: for `q.y ≠ p.y`
the scale factor `(level_y - p.y) / (q.y - p.y)` is exactly 1, for `q.y = p.y` there
is no scaling; so `end_pt` never returns `NULL` there and `get_next` never takes the
sign-mismatch fallback: with no camera override and a real-prev tile that has an
info it always scans the level at `q`. -/
theorem end_pt_at_own_level {σ : Type} (W : Stage σ) (self : isect_grid σ)
    (angle : vector3f) (current : Option grid_ptr) (p : vector3f)
    (hq : (W.refresh self angle).ginfo.pos.y = (W.refresh self angle).level_y) :
    end_pt p ((W.refresh self angle).ginfo.pos - p) (W.refresh self angle).level_y =
      some (W.refresh self angle).ginfo.pos ∧
    ((W.refresh self angle).ginfo.pos.y ≠ p.y →
      ((W.refresh self angle).level_y - p.y) /
        ((W.refresh self angle).ginfo.pos - p).y = 1) ∧
    ((W.refresh self angle).ginfo.pos.y = p.y →
      ((W.refresh self angle).ginfo.pos - p).y = 0 ∧
      end_pt p ((W.refresh self angle).ginfo.pos - p) (W.refresh self angle).level_y =
        some (p + ((W.refresh self angle).ginfo.pos - p))) ∧
    (W.refresh self angle).my_end_pt W angle = some (W.refresh self angle).ginfo.pos ∧
    ((W.refresh self angle).cam_grid = none →
      ∀ prev info, W.get_real_prev (W.refresh self angle) = some prev →
      W.get_info prev angle = some info →
      ∀ lv, (W.refresh self angle).level = some lv →
        self.get_next W angle current =
          some ⟨match check_level W.is_pt_on lv (W.refresh self angle).ginfo.pos angle with
                | some g => some g
                | none => W.grid_get_next (W.refresh self angle) angle current,
                W.refresh self angle,
                check_level_probes W.is_pt_on lv (W.refresh self angle).ginfo.pos angle⟩) ∧
    (∀ (old : isect_grid σ) (my_info : grid_info_t) (base : static_grid σ)
      (my_level : Option GRID_PTR_SET), base.ginfo = my_info →
      (old.init my_info base my_level).ginfo.pos.y = (old.init my_info base my_level).level_y) := by
  have hend : ∀ p : vector3f,
      end_pt p ((W.refresh self angle).ginfo.pos - p) (W.refresh self angle).level_y =
        some (W.refresh self angle).ginfo.pos := by
    intro p
    by_cases hy : (W.refresh self angle).ginfo.pos.y = p.y
    · rw [end_pt_of_level _ _ _ (by simp [hy]), vector3f.add_sub_cancel]
    · have hne : ((W.refresh self angle).ginfo.pos - p).y ≠ 0 := by
        simp only [vector3f.sub_y]
        exact sub_ne_zero.mpr hy
      have hsign : 0 ≤ ((W.refresh self angle).level_y - p.y) *
          ((W.refresh self angle).ginfo.pos - p).y := by
        rw [← hq, vector3f.sub_y]
        exact mul_self_nonneg _
      rw [end_pt_of_crossing _ _ _ hne hsign]
      have hone : ((W.refresh self angle).level_y - p.y) /
          ((W.refresh self angle).ginfo.pos - p).y = 1 := by
        rw [← hq, vector3f.sub_y]
        exact div_self (sub_ne_zero.mpr hy)
      rw [hone]
      congr 1
      rw [vector3f.ext_iff3]
      simp
  have hmy : (W.refresh self angle).my_end_pt W angle =
      some (W.refresh self angle).ginfo.pos := by
    cases hp : W.get_real_prev (W.refresh self angle) with
    | none => exact my_end_pt_of_no_prev W _ angle (Or.inl hp)
    | some prev =>
      cases hi : W.get_info prev angle with
      | none => exact my_end_pt_of_no_prev W _ angle (Or.inr ⟨prev, hp, hi⟩)
      | some info =>
        rw [my_end_pt_of_prev W _ angle prev info hp hi]
        exact hend info.pos
  refine ⟨hend p, ?_, ?_, hmy, ?_, ?_⟩
  · intro hy
    rw [← hq, vector3f.sub_y]
    exact div_self (sub_ne_zero.mpr hy)
  · intro hy
    have h0 : ((W.refresh self angle).ginfo.pos - p).y = 0 := by simp [hy]
    exact ⟨h0, end_pt_of_level _ _ _ h0⟩
  · intro hcam prev info hprev hinfo lv hlv
    exact get_next_of_end_pt W self angle current _ lv hcam hmy
      (my_end_pt_is_new_of_prev W _ angle prev info hprev hinfo) hlv
  · intro old my_info base my_level hb
    simp [isect_grid.init, hb]

/-- Witness of C21 on `stage_rising`: the tile at `(1, 1, 0)` on the level `1`, the
real-prev tile at the origin; the endpoint is `(1, 1, 0)`. -/
theorem end_pt_at_own_level_witness :
    (stage_rising.refresh tile_rising ⟨0, 0, 0⟩).ginfo.pos.y =
      (stage_rising.refresh tile_rising ⟨0, 0, 0⟩).level_y ∧
    end_pt ⟨0, 0, 0⟩ ((stage_rising.refresh tile_rising ⟨0, 0, 0⟩).ginfo.pos - ⟨0, 0, 0⟩)
      (stage_rising.refresh tile_rising ⟨0, 0, 0⟩).level_y = some ⟨1, 1, 0⟩ ∧
    (stage_rising.refresh tile_rising ⟨0, 0, 0⟩).my_end_pt stage_rising ⟨0, 0, 0⟩ =
      some ⟨1, 1, 0⟩ :=
  ⟨rfl,
   (end_pt_at_own_level stage_rising tile_rising ⟨0, 0, 0⟩ none ⟨0, 0, 0⟩ rfl).1,
   (end_pt_at_own_level stage_rising tile_rising ⟨0, 0, 0⟩ none ⟨0, 0, 0⟩ rfl).2.2.2.1⟩

/-! ## The two search orders of force_refresh -/

/-- From a start on the plane `level_y`, a rising ray gets no point on any lower
level and a falling ray none on any higher level. -/
theorem end_pt_none_of_wrong_side (pos vec : vector3f) (level_y y : ℚ)
    (hpos : pos.y = level_y)
    (h : (0 < vec.y ∧ y < level_y) ∨ (vec.y < 0 ∧ level_y < y)) :
    end_pt pos vec y = none := by
  rw [end_pt_eq_none_iff, hpos]
  rcases h with ⟨hv, hy⟩ | ⟨hv, hy⟩
  · exact ⟨ne_of_gt hv, Or.inr ⟨sub_neg.mpr hy, hv⟩⟩
  · exact ⟨ne_of_lt hv, Or.inl ⟨sub_pos.mpr hy, hv⟩⟩

/-- A scan over levels on none of which `end_pt` gives a point returns `NULL`. -/
theorem check_levels_loop_of_no_point (f : grid_ptr → vector3f → vector3f → Bool)
    (pos vec angle : vector3f) (levels : LEVEL_MAP)
    (h : ∀ e ∈ levels, end_pt pos vec e.1 = none) :
    check_levels_loop f pos vec angle levels none = none := by
  rw [check_levels_loop_eq_none_iff]
  intro e he p hp
  rw [h e he] at hp
  exact absurd hp (by simp)

/-- C22: for the start position of `force_refresh` on the plane of the tile
(`pos.y = level_y`), a ray with `vec.y ≠ 0`, levels above all strictly higher than
`level_y` and levels below all strictly lower: a rising ray makes `end_pt` null on
every lower level and a falling ray on every higher level, so at most one of
`check_levels_above` and `check_levels_below` returns a tile, the two search orders
(above then below, below then above) give the same tile, and `cam_grid` after
`force_refresh` is that tile whichever order the camera's y selects. -/
theorem force_refresh_order_irrelevant {σ : Type} (W : Stage σ) (self : isect_grid σ)
    (camera : vector3f)
    (hpos : (W.static_force_refresh self camera).ginfo.pos.y = self.level_y)
    (hvec : (W.angle_to_real camera - (W.static_force_refresh self camera).ginfo.pos).y ≠ 0)
    (habove : ∀ e ∈ W.get_levels_higher_than self.level_y, self.level_y < e.1)
    (hbelow : ∀ e ∈ W.get_levels_lower_than self.level_y, e.1 < self.level_y) :
    ((W.angle_to_real camera - (W.static_force_refresh self camera).ginfo.pos).y > 0 →
      ∀ e ∈ W.get_levels_lower_than self.level_y,
        end_pt (W.static_force_refresh self camera).ginfo.pos
          (W.angle_to_real camera - (W.static_force_refresh self camera).ginfo.pos) e.1 =
          none) ∧
    ((W.angle_to_real camera - (W.static_force_refresh self camera).ginfo.pos).y < 0 →
      ∀ e ∈ W.get_levels_higher_than self.level_y,
        end_pt (W.static_force_refresh self camera).ginfo.pos
          (W.angle_to_real camera - (W.static_force_refresh self camera).ginfo.pos) e.1 =
          none) ∧
    (check_levels_above W.is_pt_on (W.get_levels_higher_than self.level_y)
        (W.static_force_refresh self camera).ginfo.pos
        (W.angle_to_real camera - (W.static_force_refresh self camera).ginfo.pos)
        camera = none ∨
      check_levels_below W.is_pt_on (W.get_levels_lower_than self.level_y)
        (W.static_force_refresh self camera).ginfo.pos
        (W.angle_to_real camera - (W.static_force_refresh self camera).ginfo.pos)
        camera = none) ∧
    ((match check_levels_above W.is_pt_on (W.get_levels_higher_than self.level_y)
          (W.static_force_refresh self camera).ginfo.pos
          (W.angle_to_real camera - (W.static_force_refresh self camera).ginfo.pos)
          camera with
      | some g => some g
      | none => check_levels_below W.is_pt_on (W.get_levels_lower_than self.level_y)
          (W.static_force_refresh self camera).ginfo.pos
          (W.angle_to_real camera - (W.static_force_refresh self camera).ginfo.pos)
          camera) =
      match check_levels_below W.is_pt_on (W.get_levels_lower_than self.level_y)
          (W.static_force_refresh self camera).ginfo.pos
          (W.angle_to_real camera - (W.static_force_refresh self camera).ginfo.pos)
          camera with
      | some g => some g
      | none => check_levels_above W.is_pt_on (W.get_levels_higher_than self.level_y)
          (W.static_force_refresh self camera).ginfo.pos
          (W.angle_to_real camera - (W.static_force_refresh self camera).ginfo.pos)
          camera) ∧
    (35 ≤ |camera.x| ∧ |camera.x| ≤ 50 →
      (self.force_refresh W camera).cam_grid =
        (match check_levels_above W.is_pt_on (W.get_levels_higher_than self.level_y)
            (W.static_force_refresh self camera).ginfo.pos
            (W.angle_to_real camera - (W.static_force_refresh self camera).ginfo.pos)
            camera with
        | some g => some g
        | none => check_levels_below W.is_pt_on (W.get_levels_lower_than self.level_y)
            (W.static_force_refresh self camera).ginfo.pos
            (W.angle_to_real camera - (W.static_force_refresh self camera).ginfo.pos)
            camera) ∧
      (self.force_refresh W camera).cam_grid =
        match check_levels_below W.is_pt_on (W.get_levels_lower_than self.level_y)
            (W.static_force_refresh self camera).ginfo.pos
            (W.angle_to_real camera - (W.static_force_refresh self camera).ginfo.pos)
            camera with
        | some g => some g
        | none => check_levels_above W.is_pt_on (W.get_levels_higher_than self.level_y)
            (W.static_force_refresh self camera).ginfo.pos
            (W.angle_to_real camera - (W.static_force_refresh self camera).ginfo.pos)
            camera) := by
  have hlow : (W.angle_to_real camera - (W.static_force_refresh self camera).ginfo.pos).y > 0 →
      ∀ e ∈ W.get_levels_lower_than self.level_y,
        end_pt (W.static_force_refresh self camera).ginfo.pos
          (W.angle_to_real camera - (W.static_force_refresh self camera).ginfo.pos) e.1 =
          none := fun hv e he =>
    end_pt_none_of_wrong_side _ _ self.level_y e.1 hpos (Or.inl ⟨hv, hbelow e he⟩)
  have hhigh : (W.angle_to_real camera - (W.static_force_refresh self camera).ginfo.pos).y < 0 →
      ∀ e ∈ W.get_levels_higher_than self.level_y,
        end_pt (W.static_force_refresh self camera).ginfo.pos
          (W.angle_to_real camera - (W.static_force_refresh self camera).ginfo.pos) e.1 =
          none := fun hv e he =>
    end_pt_none_of_wrong_side _ _ self.level_y e.1 hpos (Or.inr ⟨hv, habove e he⟩)
  have hone : check_levels_above W.is_pt_on (W.get_levels_higher_than self.level_y)
        (W.static_force_refresh self camera).ginfo.pos
        (W.angle_to_real camera - (W.static_force_refresh self camera).ginfo.pos)
        camera = none ∨
      check_levels_below W.is_pt_on (W.get_levels_lower_than self.level_y)
        (W.static_force_refresh self camera).ginfo.pos
        (W.angle_to_real camera - (W.static_force_refresh self camera).ginfo.pos)
        camera = none := by
    rcases lt_or_gt_of_ne hvec with hv | hv
    · left
      rw [check_levels_above_eq_loop]
      exact check_levels_loop_of_no_point _ _ _ _ _ (hhigh hv)
    · right
      rw [check_levels_below_eq_loop]
      apply check_levels_loop_of_no_point
      intro e he
      exact hlow hv e (List.mem_reverse.mp he)
  have hagree : (match check_levels_above W.is_pt_on (W.get_levels_higher_than self.level_y)
          (W.static_force_refresh self camera).ginfo.pos
          (W.angle_to_real camera - (W.static_force_refresh self camera).ginfo.pos)
          camera with
      | some g => some g
      | none => check_levels_below W.is_pt_on (W.get_levels_lower_than self.level_y)
          (W.static_force_refresh self camera).ginfo.pos
          (W.angle_to_real camera - (W.static_force_refresh self camera).ginfo.pos)
          camera) =
      match check_levels_below W.is_pt_on (W.get_levels_lower_than self.level_y)
          (W.static_force_refresh self camera).ginfo.pos
          (W.angle_to_real camera - (W.static_force_refresh self camera).ginfo.pos)
          camera with
      | some g => some g
      | none => check_levels_above W.is_pt_on (W.get_levels_higher_than self.level_y)
          (W.static_force_refresh self camera).ginfo.pos
          (W.angle_to_real camera - (W.static_force_refresh self camera).ginfo.pos)
          camera := by
    rcases hone with h | h
    · rw [h]
      cases check_levels_below W.is_pt_on (W.get_levels_lower_than self.level_y)
          (W.static_force_refresh self camera).ginfo.pos
          (W.angle_to_real camera - (W.static_force_refresh self camera).ginfo.pos)
          camera <;> rfl
    · rw [h]
      cases check_levels_above W.is_pt_on (W.get_levels_higher_than self.level_y)
          (W.static_force_refresh self camera).ginfo.pos
          (W.angle_to_real camera - (W.static_force_refresh self camera).ginfo.pos)
          camera <;> rfl
  refine ⟨hlow, hhigh, hone, hagree, ?_⟩
  intro hband
  have hb : ABS camera.x ≥ 35 ∧ ABS camera.x ≤ 50 := by
    rw [ABS_eq_abs]; exact hband
  have hcam : (self.force_refresh W camera).cam_grid =
        (match check_levels_above W.is_pt_on (W.get_levels_higher_than self.level_y)
            (W.static_force_refresh self camera).ginfo.pos
            (W.angle_to_real camera - (W.static_force_refresh self camera).ginfo.pos)
            camera with
        | some g => some g
        | none => check_levels_below W.is_pt_on (W.get_levels_lower_than self.level_y)
            (W.static_force_refresh self camera).ginfo.pos
            (W.angle_to_real camera - (W.static_force_refresh self camera).ginfo.pos)
            camera) := by
    by_cases hy : (W.angle_to_real camera).y > 0
    · simp only [isect_grid.force_refresh, hb, and_self, if_true, hy, vector3f.negate_sub]
      split <;> rfl
    · rw [hagree]
      simp only [isect_grid.force_refresh, hb, and_self, if_true, hy, if_false,
        vector3f.negate_sub]
      split <;> rfl
  exact ⟨hcam, hcam.trans hagree⟩

/-- Witness of C22 on `stage_levels`: the tile at `(1, 1, 0)` on the level `1`, the
real camera at `(1, 5, 0)` above it, levels `2` and `3` above and `-1` below; the
upward ray finds tile `7` above and nothing below. -/
theorem force_refresh_order_irrelevant_witness :
    (stage_levels.static_force_refresh tile_override ⟨40, 0, 0⟩).ginfo.pos.y =
      tile_override.level_y ∧
    (stage_levels.angle_to_real ⟨40, 0, 0⟩ -
      (stage_levels.static_force_refresh tile_override ⟨40, 0, 0⟩).ginfo.pos).y ≠ 0 ∧
    (∀ e ∈ stage_levels.get_levels_higher_than tile_override.level_y,
      tile_override.level_y < e.1) ∧
    (∀ e ∈ stage_levels.get_levels_lower_than tile_override.level_y,
      e.1 < tile_override.level_y) ∧
    check_levels_below stage_levels.is_pt_on
      (stage_levels.get_levels_lower_than tile_override.level_y)
      (stage_levels.static_force_refresh tile_override ⟨40, 0, 0⟩).ginfo.pos
      (stage_levels.angle_to_real ⟨40, 0, 0⟩ -
        (stage_levels.static_force_refresh tile_override ⟨40, 0, 0⟩).ginfo.pos)
      ⟨40, 0, 0⟩ = none ∧
    (tile_override.force_refresh stage_levels ⟨40, 0, 0⟩).cam_grid =
      match check_levels_below stage_levels.is_pt_on
          (stage_levels.get_levels_lower_than tile_override.level_y)
          (stage_levels.static_force_refresh tile_override ⟨40, 0, 0⟩).ginfo.pos
          (stage_levels.angle_to_real ⟨40, 0, 0⟩ -
            (stage_levels.static_force_refresh tile_override ⟨40, 0, 0⟩).ginfo.pos)
          ⟨40, 0, 0⟩ with
      | some g => some g
      | none => check_levels_above stage_levels.is_pt_on
          (stage_levels.get_levels_higher_than tile_override.level_y)
          (stage_levels.static_force_refresh tile_override ⟨40, 0, 0⟩).ginfo.pos
          (stage_levels.angle_to_real ⟨40, 0, 0⟩ -
            (stage_levels.static_force_refresh tile_override ⟨40, 0, 0⟩).ginfo.pos)
          ⟨40, 0, 0⟩ := by
  have hpos : (stage_levels.static_force_refresh tile_override ⟨40, 0, 0⟩).ginfo.pos.y =
      tile_override.level_y := rfl
  have hvec : (stage_levels.angle_to_real ⟨40, 0, 0⟩ -
      (stage_levels.static_force_refresh tile_override ⟨40, 0, 0⟩).ginfo.pos).y ≠ 0 := by
    norm_num [stage_levels, tile_override, tile_rising]
  have hab : ∀ e ∈ stage_levels.get_levels_higher_than tile_override.level_y,
      tile_override.level_y < e.1 := by
    norm_num [stage_levels, tile_override, tile_rising]
  have hbe : ∀ e ∈ stage_levels.get_levels_lower_than tile_override.level_y,
      e.1 < tile_override.level_y := by
    norm_num [stage_levels, tile_override, tile_rising]
  have hnone : check_levels_below stage_levels.is_pt_on
      (stage_levels.get_levels_lower_than tile_override.level_y)
      (stage_levels.static_force_refresh tile_override ⟨40, 0, 0⟩).ginfo.pos
      (stage_levels.angle_to_real ⟨40, 0, 0⟩ -
        (stage_levels.static_force_refresh tile_override ⟨40, 0, 0⟩).ginfo.pos)
      ⟨40, 0, 0⟩ = none := by
    norm_num [check_levels_below, check_levels_loop, end_pt, stage_levels, tile_override,
      tile_rising, vector3f.sub_def]
  exact ⟨hpos, hvec, hab, hbe, hnone,
    ((force_refresh_order_irrelevant stage_levels tile_override ⟨40, 0, 0⟩ hpos hvec hab
      hbe).2.2.2.2 (by norm_num)).2⟩

/-! ## The heights along the launch chain -/

/-- The arc height `GET_Y` is strictly increasing from `0` up to `VERTEX_Z`. -/
theorem GET_Y_strict_mono (a b : ℚ) (hab : a < b) (hb : b ≤ VERTEX_Z) :
    GET_Y a < GET_Y b := by
  unfold VERTEX_Z at hb
  unfold GET_Y
  nlinarith [mul_pos (sub_pos.mpr hab) (by linarith : (0 : ℚ) < 4 - a - b)]

/-- C23: along the generated chain the local arc height `GET_Y(z) = 4 - (z - 2)^2`
is strictly increasing over the generated `z` values `0, 0.25, ..., 2`: every
tile's local y lies in `[0, 4]`, the first tile has local `(y, z) = (0, 0)` and the
last sits at the vertex `(VERTEX_Y, VERTEX_Z) = (4, 2)`; with a rotation about the
y-axis that keeps y, each tile's world y is the launcher's y plus its local y. -/
theorem launch_chain_heights {ε : Type} (E : LaunchEnv ε) (fuel : Nat)
    (self : launcher ε) (angle : vector3f) (current : Option grid_ptr)
    (hesc : E.get_esc self angle = none) (hfuel : 9 ≤ fuel)
    (hrot : ∀ (v : vector3f) (a : ℚ), (E.rotate_about_y v a).y = v.y) :
    (∀ j k : Nat, j < k → k < 9 →
      GET_Y ((j : ℚ) * STATIC_STEP) < GET_Y ((k : ℚ) * STATIC_STEP)) ∧
    (∀ k : Nat, k < 9 →
      0 ≤ GET_Y ((k : ℚ) * STATIC_STEP) ∧ GET_Y ((k : ℚ) * STATIC_STEP) ≤ 4) ∧
    (GET_Y (((0 : Nat) : ℚ) * STATIC_STEP) = 0 ∧ ((0 : Nat) : ℚ) * STATIC_STEP = 0) ∧
    (GET_Y (((8 : Nat) : ℚ) * STATIC_STEP) = VERTEX_Y ∧
      ((8 : Nat) : ℚ) * STATIC_STEP = VERTEX_Z) ∧
    ∃ r, self.get_next E fuel angle current = some r ∧
      r.generated.length = 9 ∧
      ∀ k : Nat, k < 9 → ∃ e, r.generated[k]? = some e ∧
        e.2.info.pos.y =
          (E.get_info self angle).pos.y + GET_Y ((k : ℚ) * STATIC_STEP) := by
  have hz : ∀ k : Nat, k < 9 →
      (0 : ℚ) ≤ (k : ℚ) * STATIC_STEP ∧ (k : ℚ) * STATIC_STEP ≤ VERTEX_Z := by
    intro k hk
    have h0 : (0 : ℚ) ≤ (k : ℚ) := Nat.cast_nonneg k
    have h8 : (k : ℚ) ≤ 8 := by exact_mod_cast Nat.lt_succ_iff.mp hk
    unfold STATIC_STEP VERTEX_Z
    constructor <;> linarith
  have hfirst : GET_Y (((0 : Nat) : ℚ) * STATIC_STEP) = 0 := by
    norm_num [GET_Y, STATIC_STEP]
  have hlast : GET_Y (((8 : Nat) : ℚ) * STATIC_STEP) = VERTEX_Y := by
    norm_num [GET_Y, STATIC_STEP, VERTEX_Y]
  have hmono : ∀ j k : Nat, j < k → k < 9 →
      GET_Y ((j : ℚ) * STATIC_STEP) < GET_Y ((k : ℚ) * STATIC_STEP) := by
    intro j k hjk hk
    apply GET_Y_strict_mono _ _ _ (hz k hk).2
    have hc : (j : ℚ) < (k : ℚ) := by exact_mod_cast hjk
    unfold STATIC_STEP
    linarith
  refine ⟨hmono, ?_, ⟨hfirst, by norm_num⟩, ⟨hlast, by norm_num [STATIC_STEP, VERTEX_Z]⟩, ?_⟩
  · intro k hk
    constructor
    · rcases Nat.eq_zero_or_pos k with rfl | hpos
      · rw [hfirst]
      · have := hmono 0 k hpos hk
        rw [hfirst] at this
        exact le_of_lt this
    · rcases Nat.lt_or_ge k 8 with h8 | h8
      · have := hmono k 8 h8 (by norm_num)
        rw [hlast] at this
        unfold VERTEX_Y at this
        exact le_of_lt this
      · have hk8 : k = 8 := by omega
        subst hk8
        rw [hlast]
        norm_num [VERTEX_Y]
  · obtain ⟨h, hh, hm⟩ := launch_loop_nine E (E.get_info self angle).pos
      (self.launch_angle E angle) angle fuel hfuel
    refine ⟨⟨some (E.alloc 0), h⟩, ?_, ?_, ?_⟩
    · rw [launcher_get_next_of_no_esc E fuel self angle current hesc, hh]
    · have := congrArg List.length hm
      simpa using this
    · intro k hk
      obtain ⟨e, he, hc⟩ := index_of_map_eq_range _ _ 9 h hm k hk
      refine ⟨e, he, ?_⟩
      simp only [Prod.mk.injEq] at hc
      obtain ⟨-, hinfo, -⟩ := hc
      rw [hinfo]
      simp only [TRANS_TO_LAUNCH, vector3f.add_y, hrot]
      ring

/-- Witness of C23 on `launch_env none`, whose rotation is the identity and whose
launcher sits at height `6`: the nine world heights run from `6` to `10`. -/
theorem launch_chain_heights_witness :
    ((⟨(), none, none⟩ : launcher Unit).get_next (launch_env none) 9 ⟨0, 0, 0⟩ none).map
      (fun r => r.generated.map (fun e => e.2.info.pos.y)) =
      some [6, 6 + 15 / 16, 6 + 7 / 4, 6 + 39 / 16, 9, 6 + 55 / 16, 6 + 15 / 4,
        6 + 63 / 16, 10] ∧
    ((∀ j k : Nat, j < k → k < 9 →
      GET_Y ((j : ℚ) * STATIC_STEP) < GET_Y ((k : ℚ) * STATIC_STEP)) ∧
    (∀ k : Nat, k < 9 →
      0 ≤ GET_Y ((k : ℚ) * STATIC_STEP) ∧ GET_Y ((k : ℚ) * STATIC_STEP) ≤ 4) ∧
    (GET_Y (((0 : Nat) : ℚ) * STATIC_STEP) = 0 ∧ ((0 : Nat) : ℚ) * STATIC_STEP = 0) ∧
    (GET_Y (((8 : Nat) : ℚ) * STATIC_STEP) = VERTEX_Y ∧
      ((8 : Nat) : ℚ) * STATIC_STEP = VERTEX_Z) ∧
    ∃ r, (⟨(), none, none⟩ : launcher Unit).get_next (launch_env none) 9 ⟨0, 0, 0⟩ none =
        some r ∧
      r.generated.length = 9 ∧
      ∀ k : Nat, k < 9 → ∃ e, r.generated[k]? = some e ∧
        e.2.info.pos.y =
          ((launch_env none).get_info ⟨(), none, none⟩ ⟨0, 0, 0⟩).pos.y +
            GET_Y ((k : ℚ) * STATIC_STEP)) :=
  ⟨by norm_num [launcher.get_next, launch_env, launch_loop, VERTEX_Z, STATIC_STEP,
      segments_set_real_next, TRANS_TO_LAUNCH, GET_Y, vector3f.add_def],
   launch_chain_heights (launch_env none) 9 ⟨(), none, none⟩ ⟨0, 0, 0⟩ none rfl (le_refl 9)
    (fun _ _ => rfl)⟩
end Echo
